import Mathlib

/-!
# Verification of the photo-face-finder scan pipeline

Shallow embedding of the scan-processing pipeline of the repository
(backend worker `scanWorker.js`, scan model `scan.model.js`, scan routes
`scan.routes.js`, queue `queue.js`, mock face detection `faceDetection.js`,
Google Photos client `googlePhotos.js`, S3 upload `s3Upload.js`), together
with theorems settling the spec claims about it.

Conventions of the embedding:
* JS numbers used as counters are `Nat`; confidence scores are `ℚ`.
* Database rows are explicit structures; the scans table is an association
  list keyed by scan id (`id` is the unique primary key).  SQL `UPDATE ..
  WHERE id = $n RETURNING *` is `updateRow` followed by a lookup; an update
  whose `WHERE` matches no row silently returns no row (the JS code reads
  `result.rows[0]`, obtaining `undefined`, and does not treat that as an
  error).
* `async` JS functions that can reject are modelled with `Except String`;
  a `try/catch` is a `match` on that value.
* Sources of nondeterminism (page contents fetched from the remote library,
  per-item download / upload success, `Math.random()` draws, generated S3
  urls/keys) are oracle parameters, so every theorem quantifies over them.
* Effects are made observable: progress updates are accumulated in lists in
  invocation order, and database writes are threaded.  The Redis (ephemeral)
  sink receives exactly the same update values as the durable store and is
  not modelled separately.
-/

namespace PhotoFaceFinder

/-! ## Configuration (`config/index.js`)

Only the sections the pipeline reads.  Values of type `Nat`/`ℚ` that come
from environment variables keep their defaults here; functions that depend
on them take the configuration as a parameter. -/

structure FaceDetectionConfig where
  confidenceThreshold : ℚ
  matchThreshold : ℚ
  maxFaces : Nat
deriving DecidableEq, Repr

structure WorkerConfig where
  concurrency : Nat
  batchSize : Nat
  maxRetries : Nat
deriving DecidableEq, Repr

structure Config where
  worker : WorkerConfig
  faceDetection : FaceDetectionConfig
deriving DecidableEq, Repr

/-- The default configuration object of `config/index.js`:
`worker = {concurrency: 1, batchSize: 100, maxRetries: 3}`,
`faceDetection = {confidenceThreshold: 0.7, matchThreshold: 0.6, maxFaces: 10}`. -/
def config : Config :=
  { worker := { concurrency := 1, batchSize := 100, maxRetries := 3 }
    faceDetection :=
      { confidenceThreshold := 7/10, matchThreshold := 3/5, maxFaces := 10 } }

/-! ## Scan rows and the scans table (`scan.model.js`, schema `init.sql`)

The columns the pipeline reads or writes.  Immutable columns
(`session_id`, `friend_email`, `oauth_token_encrypted`, `created_at`) are
omitted: no modelled operation touches them. -/

inductive ScanStatus
  | pending
  | processing
  | completed
  | failed
  | cancelled
deriving DecidableEq, Repr

structure Scan where
  status : ScanStatus
  totalPhotos : Nat
  scannedPhotos : Nat
  matchedPhotos : Nat
  uploadedPhotos : Nat
  errorMessage : Option String
  startedAt : Option Nat
  completedAt : Option Nat
  jobId : Option Nat
deriving DecidableEq, Repr

/-- The scans table: rows keyed by scan id (unique primary key). -/
def ScanDB : Type := List (Nat × Scan)

/-- `SELECT * FROM scans WHERE id = $1` (first matching row or none). -/
def lookupScan (db : ScanDB) (id : Nat) : Option Scan :=
  (List.find? (fun p => p.1 = id) db).map (·.2)

/-- `UPDATE scans SET ... WHERE id = $1`: applies `f` to every row whose key
is `id` (ids are unique, so at most one in well-formed tables). -/
def updateRow (db : ScanDB) (id : Nat) (f : Scan → Scan) : ScanDB :=
  db.map (fun p => if p.1 = id then (p.1, f p.2) else p)

/-- `markScanStarted` (scan.model.js): `UPDATE scans SET status =
'processing', started_at = NOW() WHERE id = $1 RETURNING *`.  Returns the
updated table and `result.rows[0]` (none when the id matches no row — the
JS code then returns `undefined` without error). -/
def markScanStarted (db : ScanDB) (id : Nat) (now : Nat) :
    ScanDB × Option Scan :=
  let db' := updateRow db id
    (fun s => { s with status := .processing, startedAt := some now })
  (db', lookupScan db' id)

/-- `markScanCompleted` (scan.model.js): `UPDATE scans SET status =
'completed', completed_at = NOW() WHERE id = $1 RETURNING *`.  Note: the
update is unconditional — no guard on the current status. -/
def markScanCompleted (db : ScanDB) (id : Nat) (now : Nat) :
    ScanDB × Option Scan :=
  let db' := updateRow db id
    (fun s => { s with status := .completed, completedAt := some now })
  (db', lookupScan db' id)

/-- `markScanFailed` (scan.model.js): `UPDATE scans SET status = 'failed',
error_message = $1, completed_at = NOW() WHERE id = $2 RETURNING *`.
Also unconditional. -/
def markScanFailed (db : ScanDB) (id : Nat) (msg : String) (now : Nat) :
    ScanDB × Option Scan :=
  let db' := updateRow db id
    (fun s => { s with status := .failed, errorMessage := some msg,
                       completedAt := some now })
  (db', lookupScan db' id)

/-- The four counter fields of an `updateScanProgress` call; `none` models a
JS `undefined`/`null` binding (the SQL `COALESCE($n, column)` then keeps the
prior value). -/
structure ProgressFields where
  totalPhotos : Option Nat
  scannedPhotos : Option Nat
  matchedPhotos : Option Nat
  uploadedPhotos : Option Nat
deriving DecidableEq, Repr

/-- `updateScanProgress` (scan.model.js): `UPDATE scans SET total_photos =
COALESCE($1, total_photos), ... WHERE id = $5 RETURNING *`.  The status
column is not touched. -/
def updateScanProgress (db : ScanDB) (id : Nat) (p : ProgressFields) :
    ScanDB × Option Scan :=
  let db' := updateRow db id (fun s =>
    { s with totalPhotos := p.totalPhotos.getD s.totalPhotos
             scannedPhotos := p.scannedPhotos.getD s.scannedPhotos
             matchedPhotos := p.matchedPhotos.getD s.matchedPhotos
             uploadedPhotos := p.uploadedPhotos.getD s.uploadedPhotos })
  (db', lookupScan db' id)

/-! ## The cancel endpoint (`scan.routes.js`, `POST /api/scans/:scanId/cancel`)

The job queue is modelled as the list of job ids currently present;
`queue.cancelJob` (queue.js) looks the job up and removes it when found. -/

inductive CancelResp
  | notFound   -- 404 "Scan not found"
  | rejected   -- 400 "Cannot cancel: Scan is already completed or failed"
  | ok         -- 200 "Scan cancelled successfully"
deriving DecidableEq, Repr

/-- `cancelJob` (queue.js): remove the job from the queue if present. -/
def cancelJob (queue : List Nat) (jobId : Nat) : List Nat :=
  queue.filter (fun j => j ≠ jobId)

/-- The cancel route handler body.  Rejection happens only when
`scan.status === 'completed' || scan.status === 'failed'`; any other
status (including `'cancelled'`) proceeds to cancel the job and run
`updateScan(scanId, { status: 'cancelled', completed_at: new Date() })`. -/
def cancelScan (db : ScanDB) (queue : List Nat) (id : Nat) (now : Nat) :
    CancelResp × ScanDB × List Nat :=
  match lookupScan db id with
  | none => (.notFound, db, queue)
  | some scan =>
    if scan.status = .completed ∨ scan.status = .failed then
      (.rejected, db, queue)
    else
      let queue' := match scan.jobId with
        | some j => cancelJob queue j
        | none => queue
      let db' := updateRow db id
        (fun s => { s with status := .cancelled, completedAt := some now })
      (.ok, db', queue')

/-! ## Mock face detection (`services/faceDetection.js`)

A JS image buffer is either `null` or a byte list.  The `image-size`
library call `sizeOf(buffer)` may throw; it is an oracle
`List Nat → Except String (Nat × Nat)` returning the dimensions or the
thrown message.  `Math.random()` draws are oracle rationals in `[0, 1)`.
The module-level `initialized` flag only gates a log line and is not
modelled. -/

inductive JsBuffer
  | null
  | buf (bytes : List Nat)
deriving DecidableEq, Repr

/-- A mock detected face.  `box` coordinates are `Math.floor(width * 0.3)`
etc. (floor of a rational times a `Nat` is `Nat` multiplication then
division); the five landmark points are derived the same way and never read
downstream, so they are omitted; `descriptor` is the 128 random draws,
passed in as an oracle; `score` is the constant `0.95`. -/
structure Face where
  xMin : Nat
  yMin : Nat
  boxWidth : Nat
  boxHeight : Nat
  score : ℚ
  descriptor : List ℚ
deriving DecidableEq, Repr

def mockFace (width height : Nat) (descriptor : List ℚ) : Face :=
  { xMin := width * 3 / 10, yMin := height * 2 / 10,
    boxWidth := width * 4 / 10, boxHeight := height * 5 / 10,
    score := 19/20, descriptor := descriptor }

/-- The `try` body of `detectFaces`: empty/null buffer yields `[]`
directly; otherwise `sizeOf` runs (and may throw) and one mock face is
produced from the dimensions. -/
def detectFacesBody (sizeOfE : List Nat → Except String (Nat × Nat))
    (descriptor : List ℚ) : JsBuffer → Except String (List Face)
  | .null => .ok []
  | .buf bytes =>
    if bytes.length = 0 then .ok []
    else
      match sizeOfE bytes with
      | .error e => .error e
      | .ok (w, h) => .ok [mockFace w h descriptor]

/-- `detectFaces` (faceDetection.js): the body wrapped in its
`try/catch`, whose catch logs and returns `[]`.  The result is an
`Except` because the JS function is `async` (a rejection would be an
`.error`), but the catch makes it total. -/
def detectFaces (sizeOfE : List Nat → Except String (Nat × Nat))
    (descriptor : List ℚ) (buffer : JsBuffer) : Except String (List Face) :=
  match detectFacesBody sizeOfE descriptor buffer with
  | .error _ => .ok []
  | .ok faces => .ok faces

/-- The match result object.  On the success path the JS object also
carries `bestMatchIndex: 0` and a constant `distance`, never read by any
caller; they are omitted.  `err` is the `error: error.message` field added
by the catch branch. -/
structure MatchResult where
  isMatch : Bool
  confidence : ℚ
  facesDetected : Nat
  err : Option String
deriving DecidableEq, Repr

/-- `matchFace` (faceDetection.js): detect faces, then mock-decide a match
with `Math.random() > 0.3` (draw `r1`) and draw the confidence
(`0.85 + Math.random() * 0.1` on a match, `0.3 + Math.random() * 0.2`
otherwise, draw `r2`).  The reference embeddings parameter is never read by
the mock.  The outer catch returns a non-match result instead of
rethrowing, so the function always resolves (`.ok`). -/
def matchFace (sizeOfE : List Nat → Except String (Nat × Nat))
    (descriptor : List ℚ) (r1 r2 : ℚ) (_referenceEmbeddings : List (List ℚ))
    (buffer : JsBuffer) : Except String MatchResult :=
  match detectFaces sizeOfE descriptor buffer with
  | .error e => .ok { isMatch := false, confidence := 0, facesDetected := 0,
                      err := some e }
  | .ok faces =>
    if faces.length = 0 then
      .ok { isMatch := false, confidence := 0, facesDetected := 0,
            err := none }
    else
      let isMatch : Bool := decide ((3 : ℚ)/10 < r1)
      let confidence : ℚ :=
        if isMatch then 85/100 + r2 * (1/10) else 3/10 + r2 * (2/10)
      .ok { isMatch := isMatch, confidence := confidence,
            facesDetected := faces.length, err := none }

/-! ## S3 upload retry (`services/s3Upload.js`, `uploadPhotoWithRetry`)

The underlying `uploadPhoto` call is an oracle from the attempt number to
its outcome.  The model returns the number of attempts made, the list of
backoff waits (in ms, in order), and the final outcome: `some (.ok _)` is a
resolved upload, `some (.error _)` a thrown final error, and `none` the
fall-through `undefined` when the loop body never runs (`maxRetries = 0`). -/

structure UploadOk where
  url : String
  key : String
deriving DecidableEq, Repr

/-- The retry loop from `attempt` with `fuel` iterations remaining
(`fuel = maxRetries - attempt + 1`); `fuel = 1` means
`attempt === maxRetries`, where a failure is rethrown instead of waited
out.  The wait before retrying attempt `n+1` is
`Math.pow(2, attempt - 1) * 1000` ms. -/
def uploadRetryGo (attemptRes : Nat → Except String UploadOk) :
    Nat → Nat → Nat × List Nat × Option (Except String UploadOk)
  | _, 0 => (0, [], none)
  | attempt, fuel + 1 =>
    match attemptRes attempt with
    | .ok r => (1, [], some (.ok r))
    | .error e =>
      if fuel = 0 then (1, [], some (.error e))
      else
        let wait := 2 ^ (attempt - 1) * 1000
        let (n, waits, res) := uploadRetryGo attemptRes (attempt + 1) fuel
        (n + 1, wait :: waits, res)

/-- `uploadPhotoWithRetry(buffer, filename, metadata, maxRetries = 3)`:
the loop `for (attempt = 1; attempt <= maxRetries; attempt++)`. -/
def uploadPhotoWithRetry (attemptRes : Nat → Except String UploadOk)
    (maxRetries : Nat) : Nat × List Nat × Option (Except String UploadOk) :=
  uploadRetryGo attemptRes 1 maxRetries

/-! ## The scan worker (`workers/scanWorker.js`, `processScan`)

A remote photo's metadata; `id` stands for the Google photo id string,
`baseUrl` and `filename` are carried through to match records.  The
remaining metadata fields (`mimeType`, `mediaMetadata.*`) are copied
verbatim into the stored metadata JSON and never branched on; they are
omitted. -/

structure Photo where
  id : Nat
  baseUrl : String
  filename : String
deriving DecidableEq, Repr

/-- One `updateProgress(scanId, {...})` payload: the counters plus the
batch position, written to Redis and (via `updateScanProgress`) to the
scans row. -/
structure ProgressUpdate where
  totalPhotos : Nat
  scannedPhotos : Nat
  matchedPhotos : Nat
  uploadedPhotos : Nat
  currentBatch : Nat
  totalBatches : Nat
deriving DecidableEq, Repr

/-- One entry of the in-memory `matchedPhotosData` array (the metadata
object's passthrough fields reduced to `filename`). -/
structure MatchedData where
  googlePhotoId : Nat
  googlePhotoUrl : String
  confidence : ℚ
  filename : String
deriving DecidableEq, Repr

/-- One element of `uploadResults` from `uploadPhotosInBatch`.  On failure
the JS object carries only `{originalId, success: false, error}`; the
unread `url`/`key` slots are `""` here.  `thumbnail` is always absent
(`uploadPhotoWithRetry` → `uploadPhoto` never returns one), so
`thumbnailUrl` in records below is the JS `null`. -/
structure UploadResult where
  originalId : Nat
  success : Bool
  url : String
  key : String
deriving DecidableEq, Repr

/-- One row inserted into `matched_photos` by `createMatchedPhotos`. -/
structure PhotoRecord where
  scanId : Nat
  googlePhotoId : Nat
  googlePhotoUrl : String
  s3Url : String
  s3Key : String
  thumbnailUrl : Option String
  confidenceScore : ℚ
deriving DecidableEq, Repr

/-- The worker's local mutable bindings during a run: the four counters,
the match accumulator, and the sequence of `updateProgress` calls made so
far (in invocation order). -/
structure WorkerState where
  total : Nat
  scanned : Nat
  matched : Nat
  uploaded : Nat
  matchedData : List MatchedData
  updates : List ProgressUpdate
deriving DecidableEq, Repr

/-- The progress payload built from the current counters. -/
def mkUpd (st : WorkerState) (curBatch totBatches : Nat) : ProgressUpdate :=
  { totalPhotos := st.total, scannedPhotos := st.scanned,
    matchedPhotos := st.matched, uploadedPhotos := st.uploaded,
    currentBatch := curBatch, totalBatches := totBatches }

/-- The per-photo body of the batch loop (scanWorker.js): await
`matchFace` (`matchRes photo.id` is its resolved value — `matchFace` never
rejects, see `matchFace_never_throws`, so the surrounding `try/catch` is
not taken), increment `scannedPhotos`, on `isMatch` increment
`matchedPhotos` and push to `matchedPhotosData`, then push a progress
update iff `scannedPhotos % 10 === 0`. -/
def evalPhoto (matchRes : Nat → MatchResult) (curBatch totBatches : Nat)
    (st : WorkerState) (photo : Photo) : WorkerState :=
  let res := matchRes photo.id
  let st1 := { st with scanned := st.scanned + 1 }
  let st2 :=
    if res.isMatch then
      { st1 with
        matched := st1.matched + 1
        matchedData := st1.matchedData ++
          [{ googlePhotoId := photo.id, googlePhotoUrl := photo.baseUrl,
             confidence := res.confidence, filename := photo.filename }] }
    else st1
  if st2.scanned % 10 = 0 then
    { st2 with updates := st2.updates ++ [mkUpd st2 curBatch totBatches] }
  else st2

/-- One batch: `downloadPhotosInBatches` keeps, in input order, exactly the
photos whose thumbnail download succeeded (`dlOk`), then each downloaded
photo is evaluated. -/
def runBatch (matchRes : Nat → MatchResult) (dlOk : Nat → Bool)
    (totBatches curBatch : Nat) (st : WorkerState) (batch : List Photo) :
    WorkerState :=
  (batch.filter (fun p => dlOk p.id)).foldl
    (evalPhoto matchRes curBatch totBatches) st

/-- All batches in order, `curBatch` counting from 1 (the JS
`Math.floor(i / batchSize) + 1`). -/
def runBatches (matchRes : Nat → MatchResult) (dlOk : Nat → Bool)
    (totBatches : Nat) : Nat → WorkerState → List (List Photo) → WorkerState
  | _, st, [] => st
  | curBatch, st, b :: bs =>
    runBatches matchRes dlOk totBatches (curBatch + 1)
      (runBatch matchRes dlOk totBatches curBatch st b) bs

/-- Structural worker for `chunks` below, with explicit fuel so that the
definition computes by `rfl` (each step strictly shrinks the list, so
`fuel = l.length` always suffices). -/
def chunksGo (bs : Nat) : Nat → List α → List (List α)
  | _, [] => []
  | 0, _ :: _ => []
  | fuel + 1, x :: xs => (x :: xs).take bs :: chunksGo bs fuel (xs.drop (bs - 1))

/-- `allPhotos.slice(i, i + batchSize)` slices: the list cut into chunks of
`bs` elements.  Faithful only for `bs ≥ 1` (the JS loop would not advance
for `bs = 0`); for `bs ≥ 1`, `(x :: xs).drop bs = xs.drop (bs - 1)`. -/
def chunks (bs : Nat) (l : List α) : List (List α) :=
  chunksGo bs l.length l

/-- The enumeration-stage progress updates: `fetchAllPhotos` invokes its
progress callback once per fetched page with the cumulative item count, and
the worker's callback fires an (unawaited) `updateProgress` with
`totalPhotos := totalFetched` and everything else still `0`. -/
def pageUpdates : List (List Photo) → Nat → List ProgressUpdate
  | [], _ => []
  | pg :: pgs, acc =>
    { totalPhotos := acc + pg.length, scannedPhotos := 0, matchedPhotos := 0,
      uploadedPhotos := 0, currentBatch := 0, totalBatches := 0 }
      :: pageUpdates pgs (acc + pg.length)

/-- The upload stage (`uploadPhotosInBatch` as observed by the worker):
every input photo yields one result in input order; on success the shared
`completed` counter increments and the worker's callback pushes a progress
update with `uploadedPhotos := completed` (failures do not increment it and
push nothing).  `base` holds the counters current at that point; `upUrl`
and `upKey` are the generated S3 url/key oracles. -/
def runUploads (upOk : Nat → Bool) (upUrl upKey : Nat → String)
    (base : WorkerState) (totBatches : Nat) :
    Nat → List Photo → List UploadResult × List ProgressUpdate
  | _, [] => ([], [])
  | completed, p :: ps =>
    if upOk p.id then
      let completed' := completed + 1
      let (rs, us) := runUploads upOk upUrl upKey base totBatches completed' ps
      ({ originalId := p.id, success := true, url := upUrl p.id,
         key := upKey p.id } :: rs,
       { totalPhotos := base.total, scannedPhotos := base.scanned,
         matchedPhotos := base.matched, uploadedPhotos := completed',
         currentBatch := totBatches, totalBatches := totBatches } :: us)
    else
      let (rs, us) := runUploads upOk upUrl upKey base totBatches completed ps
      ({ originalId := p.id, success := false, url := "", key := "" } :: rs,
       us)

/-- The `photoRecords` construction: keep the successful upload results and
join each with its `matchedPhotosData` entry by `googlePhotoId`.  In the
source the join is `matchedPhotosData.find(...)` followed by unguarded
field access — a missing entry would throw; `pipelineFindSome` below proves
the entry always exists for results produced by the pipeline, so the
`filterMap` coincides with the source's `map`. -/
def photoRecordsOf (scanId : Nat) (mdata : List MatchedData)
    (results : List UploadResult) : List PhotoRecord :=
  (results.filter (·.success)).filterMap (fun r =>
    (mdata.find? (fun m => m.googlePhotoId = r.originalId)).map (fun m =>
      { scanId := scanId, googlePhotoId := r.originalId,
        googlePhotoUrl := m.googlePhotoUrl, s3Url := r.url, s3Key := r.key,
        thumbnailUrl := none, confidenceScore := m.confidence }))

/-- The environment of one run: the pages the enumeration yields, and the
per-photo outcomes of thumbnail download, match evaluation (the resolved
`matchFace` value for that photo's buffer), original download, and S3
upload (including the generated url/key). -/
structure Env where
  pages : List (List Photo)
  dlOk : Nat → Bool
  matchRes : Nat → MatchResult
  origOk : Nat → Bool
  upOk : Nat → Bool
  upUrl : Nat → String
  upKey : Nat → String

/-- The job-handler return value.  The zero-photo early return carries only
`totalPhotos`/`matchedPhotos` (plus a message); the missing fields are 0
here. -/
structure ScanReturn where
  success : Bool
  totalPhotos : Nat
  scannedPhotos : Nat
  matchedPhotos : Nat
  uploadedPhotos : Nat
deriving DecidableEq, Repr

/-- Everything observable about one run: the progress updates in order,
the upload results, the `matched_photos` rows inserted, the resulting scans
table, the handler's return value, whether the batch loop and the
originals/upload stage were entered, and the final value of the
`uploadedPhotos` binding. -/
structure RunOutcome where
  updates : List ProgressUpdate
  uploadResults : List UploadResult
  rows : List PhotoRecord
  db : ScanDB
  ret : ScanReturn
  batchStageRan : Bool
  originalsStageRan : Bool
  finalUploaded : Nat

/-- Replay the durable half of the `updateProgress` calls: each one runs
`updateScanProgress` with all four counters present. -/
def applyUpdates (db : ScanDB) (id : Nat) (us : List ProgressUpdate) :
    ScanDB :=
  us.foldl (fun d u =>
    (updateScanProgress d id
      { totalPhotos := some u.totalPhotos,
        scannedPhotos := some u.scannedPhotos,
        matchedPhotos := some u.matchedPhotos,
        uploadedPhotos := some u.uploadedPhotos }).1) db

/-- `processScan` (scanWorker.js), happy path.  Steps, in source order:
mark started; (token decrypt/refresh is modelled as succeeding — the claims
under verification do not involve it); enumerate (`fetchAllPhotos`, one
progress callback per page); zero-photo short-circuit; otherwise one
initial progress update, then the batch/match loop over
`chunks batchSize`; then, only when `matchedPhotosData` is non-empty,
original downloads for the matched ids, uploads, record construction and
insertion, and `uploadedPhotos = photoRecords.length`; one final progress
update; mark completed.  Database writes are threaded in program order.
The surrounding `try/catch` (whose catch runs `markScanFailed` and
rethrows) is not reachable in this model because no modelled operation
rejects; `markScanFailed` itself is modelled above and exercised by the
terminal-status claims. -/
def processScan (cfg : Config) (env : Env) (scanId now : Nat)
    (db : ScanDB) : RunOutcome :=
  let db1 := (markScanStarted db scanId now).1
  let allPhotos := env.pages.flatten
  let enumUpds := pageUpdates env.pages 0
  if allPhotos.length = 0 then
    { updates := enumUpds, uploadResults := [], rows := [],
      db := (markScanCompleted (applyUpdates db1 scanId enumUpds)
        scanId now).1,
      ret := { success := true, totalPhotos := 0, scannedPhotos := 0,
               matchedPhotos := 0, uploadedPhotos := 0 },
      batchStageRan := false, originalsStageRan := false, finalUploaded := 0 }
  else
    let total := allPhotos.length
    let bs := cfg.worker.batchSize
    let totBatches := (total + bs - 1) / bs   -- Math.ceil(total / bs)
    let initUpd : ProgressUpdate :=
      { totalPhotos := total, scannedPhotos := 0, matchedPhotos := 0,
        uploadedPhotos := 0, currentBatch := 0, totalBatches := totBatches }
    let st0 : WorkerState :=
      { total := total, scanned := 0, matched := 0, uploaded := 0,
        matchedData := [], updates := enumUpds ++ [initUpd] }
    let st1 := runBatches env.matchRes env.dlOk totBatches 1 st0
      (chunks bs allPhotos)
    if st1.matchedData.length ≠ 0 then
      let matchedMeta := allPhotos.filter (fun p =>
        st1.matchedData.any (fun m => m.googlePhotoId = p.id))
      let originals := matchedMeta.filter (fun p => env.origOk p.id)
      let uploadResults :=
        (runUploads env.upOk env.upUrl env.upKey st1 totBatches 0 originals).1
      let upUpds :=
        (runUploads env.upOk env.upUrl env.upKey st1 totBatches 0 originals).2
      let recs := photoRecordsOf scanId st1.matchedData uploadResults
      let uploaded := recs.length
      let finalUpd : ProgressUpdate :=
        { totalPhotos := st1.total, scannedPhotos := st1.scanned,
          matchedPhotos := st1.matched, uploadedPhotos := uploaded,
          currentBatch := totBatches, totalBatches := totBatches }
      let allUpds := st1.updates ++ upUpds ++ [finalUpd]
      { updates := allUpds, uploadResults := uploadResults, rows := recs,
        db := (markScanCompleted (applyUpdates db1 scanId allUpds)
          scanId now).1,
        ret := { success := true, totalPhotos := st1.total,
                 scannedPhotos := st1.scanned, matchedPhotos := st1.matched,
                 uploadedPhotos := uploaded },
        batchStageRan := true, originalsStageRan := true,
        finalUploaded := uploaded }
    else
      let finalUpd : ProgressUpdate :=
        { totalPhotos := st1.total, scannedPhotos := st1.scanned,
          matchedPhotos := st1.matched, uploadedPhotos := 0,
          currentBatch := totBatches, totalBatches := totBatches }
      let allUpds := st1.updates ++ [finalUpd]
      { updates := allUpds, uploadResults := [], rows := [],
        db := (markScanCompleted (applyUpdates db1 scanId allUpds)
          scanId now).1,
        ret := { success := true, totalPhotos := st1.total,
                 scannedPhotos := st1.scanned, matchedPhotos := st1.matched,
                 uploadedPhotos := 0 },
        batchStageRan := true, originalsStageRan := false,
        finalUploaded := 0 }

/-! ## Sample data for counterexamples and witnesses -/

/-- A fresh pending scan row owning queue job `11`. -/
def pendingScan : Scan :=
  { status := .pending, totalPhotos := 0, scannedPhotos := 0,
    matchedPhotos := 0, uploadedPhotos := 0, errorMessage := none,
    startedAt := none, completedAt := none, jobId := some 11 }

/-- A scan already cancelled at time 5. -/
def cancelledScan : Scan :=
  { pendingScan with status := .cancelled, completedAt := some 5 }

/-- A scan already completed at time 5. -/
def completedScan : Scan :=
  { pendingScan with status := .completed, completedAt := some 5 }

/-- A match result the mock produces for a non-matching photo. -/
def sampleNoMatch : MatchResult :=
  { isMatch := false, confidence := 2/5, facesDetected := 1, err := none }

/-- A match result the mock produces for a matching photo. -/
def sampleMatch : MatchResult :=
  { isMatch := true, confidence := 9/10, facesDetected := 1, err := none }

/-- Seven photos on one enumeration page; every thumbnail download,
original download and upload succeeds; nothing matches. -/
def sampleEnv7 : Env :=
  { pages := [(List.range 7).map (fun n => ⟨n, "base", "img"⟩)]
    dlOk := fun _ => true, matchRes := fun _ => sampleNoMatch,
    origOk := fun _ => true, upOk := fun _ => true,
    upUrl := fun _ => "url", upKey := fun _ => "key" }

/-- Like `sampleEnv7`, but photos 2 and 6 match and the upload of photo 6
fails. -/
def sampleEnvMatch : Env :=
  { pages := [(List.range 7).map (fun n => ⟨n, "base", "img"⟩)]
    dlOk := fun _ => true
    matchRes := fun n => if n = 2 ∨ n = 6 then sampleMatch else sampleNoMatch
    origOk := fun _ => true, upOk := fun n => n ≠ 6,
    upUrl := fun n => "u" ++ toString n, upKey := fun n => "k" ++ toString n }

/-- An enumeration that returns a single empty page (the JS `do/while`
always fetches at least one page). -/
def sampleEnvEmpty : Env :=
  { pages := [[]]
    dlOk := fun _ => true, matchRes := fun _ => sampleNoMatch,
    origOk := fun _ => true, upOk := fun _ => true,
    upUrl := fun _ => "url", upKey := fun _ => "key" }

/-- The worker configuration with `BATCH_SIZE` overridden to 5. -/
def cfgBatch5 : Config :=
  { config with worker := { config.worker with batchSize := 5 } }

/-! ## Ordering on progress updates and push points

Definitions used by the statements of the batching/monotonicity claims. -/

/-- Pointwise order on the four counters of a progress update (the batch
index fields are positional, not counters). -/
def cLe (u v : ProgressUpdate) : Prop :=
  u.totalPhotos ≤ v.totalPhotos ∧ u.scannedPhotos ≤ v.scannedPhotos
    ∧ u.matchedPhotos ≤ v.matchedPhotos
    ∧ u.uploadedPhotos ≤ v.uploadedPhotos

instance (u v : ProgressUpdate) : Decidable (cLe u v) := by
  unfold cLe
  infer_instance

/-- The counters of a worker state, as a progress update (batch fields 0);
used to compare pushed updates against the state that pushed them. -/
def cnt (st : WorkerState) : ProgressUpdate :=
  { totalPhotos := st.total, scannedPhotos := st.scanned,
    matchedPhotos := st.matched, uploadedPhotos := st.uploaded,
    currentBatch := 0, totalBatches := 0 }

/-- The cumulative scanned counts, within the window `(a, a + n]`, at which
the batch loop pushes a progress update: exactly the multiples of 10. -/
def pushPoints : Nat → Nat → List Nat
  | _, 0 => []
  | a, n + 1 =>
    (if (a + 1) % 10 = 0 then [a + 1] else []) ++ pushPoints (a + 1) n

/-- The total number of successfully downloaded (hence evaluated) photos
over a list of batches. -/
def dSum (dl : Nat → Bool) (bs' : List (List Photo)) : Nat :=
  (bs'.map (fun b => (b.filter (fun p => dl p.id)).length)).sum

/-- One durable progress write with all four counters present: the
`COALESCE` keeps nothing, the counters are overwritten wholesale and every
other column is untouched. -/
def overwriteCounters (s : Scan) (u : ProgressUpdate) : Scan :=
  { s with totalPhotos := u.totalPhotos, scannedPhotos := u.scannedPhotos,
           matchedPhotos := u.matchedPhotos,
           uploadedPhotos := u.uploadedPhotos }

/-! ## Basic lemmas about the scans-table operations -/

/-- Fuel irrelevance: any two fuels at least the list length give the same
slicing. -/
theorem chunksGo_irrel (bs : Nat) :
    ∀ (fuel fuel' : Nat) (l : List α), l.length ≤ fuel → l.length ≤ fuel' →
      chunksGo bs fuel l = chunksGo bs fuel' l := by
  intro fuel
  induction fuel with
  | zero =>
    intro fuel' l hl hl'
    match l with
    | [] => cases fuel' <;> rfl
    | x :: xs => simp at hl
  | succ n ih =>
    intro fuel' l hl hl'
    match l with
    | [] => cases fuel' <;> rfl
    | x :: xs =>
      match fuel' with
      | 0 => simp at hl'
      | m + 1 =>
        show (x :: xs).take bs :: chunksGo bs n (xs.drop (bs - 1))
            = (x :: xs).take bs :: chunksGo bs m (xs.drop (bs - 1))
        congr 1
        apply ih
        · simp only [List.length_drop]
          simp only [List.length_cons] at hl
          omega
        · simp only [List.length_drop]
          simp only [List.length_cons] at hl'
          omega

/-- The recursion equation of `chunks` on a non-empty list. -/
theorem chunks_cons (bs : Nat) (x : α) (xs : List α) :
    chunks bs (x :: xs)
      = (x :: xs).take bs :: chunks bs (xs.drop (bs - 1)) := by
  show (x :: xs).take bs :: chunksGo bs xs.length (xs.drop (bs - 1))
      = (x :: xs).take bs :: chunksGo bs (xs.drop (bs - 1)).length
          (xs.drop (bs - 1))
  congr 1
  apply chunksGo_irrel
  · simp only [List.length_drop]
    omega
  · exact le_refl _


/-- Looking up the updated key sees the row through `f`. -/
theorem lookup_updateRow (db : ScanDB) (id : Nat) (f : Scan → Scan) :
    lookupScan (updateRow db id f) id = (lookupScan db id).map f := by
  induction db with
  | nil => rfl
  | cons p t ih =>
    by_cases h : p.1 = id
    · simp [lookupScan, updateRow, List.find?, h]
    · simpa [lookupScan, updateRow, List.find?, h] using ih

/-- An update whose `WHERE id` matches no row leaves the table unchanged. -/
theorem updateRow_absent (db : ScanDB) (id : Nat) (f : Scan → Scan)
    (h : lookupScan db id = none) : updateRow db id f = db := by
  induction db with
  | nil => rfl
  | cons p t ih =>
    by_cases hp : p.1 = id
    · rw [lookupScan, List.find?_cons_of_pos _ (by simpa using hp)] at h
      simp at h
    · have h' : lookupScan t id = none := by
        rwa [lookupScan, List.find?_cons_of_neg _ (by simpa using hp)] at h
      show (if p.1 = id then (p.1, f p.2) else p) :: updateRow t id f = p :: t
      rw [if_neg hp, ih h']

/-- Progress writes (`COALESCE` on the four counters) never touch the
status column. -/
theorem status_updateScanProgress (db : ScanDB) (id : Nat)
    (p : ProgressFields) :
    (lookupScan (updateScanProgress db id p).1 id).map (·.status)
      = (lookupScan db id).map (·.status) := by
  unfold updateScanProgress
  dsimp only
  rw [lookup_updateRow]
  cases lookupScan db id <;> rfl

/-- `detectFaces` always resolves (its `catch` swallows every throw). -/
theorem detectFaces_ok (so : List Nat → Except String (Nat × Nat))
    (descr : List ℚ) (buffer : JsBuffer) :
    ∃ faces, detectFaces so descr buffer = .ok faces := by
  unfold detectFaces
  cases h : detectFacesBody so descr buffer with
  | error e => exact ⟨[], rfl⟩
  | ok faces => exact ⟨faces, rfl⟩

/-! ## C1 — cancelling a terminal scan -/

/-- C1 counterexample.  The claim states that a cancel request against any
terminal scan (completed, failed, **or cancelled**) is rejected and leaves
the scan unchanged.  On a scan whose status is `cancelled` (a terminal
status) the route answers 200 OK, not the rejection error, and rewrites the
row: `completed_at` moves from 5 to the request time 7. -/
theorem cancel_cancelled_not_rejected_cex :
    (cancelScan [(1, cancelledScan)] [11] 1 7).1 = CancelResp.ok
    ∧ (cancelScan [(1, cancelledScan)] [11] 1 7).1 ≠ CancelResp.rejected
    ∧ (lookupScan (cancelScan [(1, cancelledScan)] [11] 1 7).2.1 1).map
        (·.completedAt) = some (some 7)
    ∧ (lookupScan [(1, cancelledScan)] 1).map (·.completedAt)
        = some (some 5) := by
  decide

/-- C1 (amended): a cancel request against a scan whose status is
`completed` or `failed` is rejected with the explicit "Cannot cancel"
error and changes neither the scans table nor the job queue.  (A cancel
against an already-`cancelled` scan is instead accepted again and rewrites
`completed_at`, as the counterexample shows.) -/
theorem cancel_rejects_completed_failed (db : ScanDB) (q : List Nat)
    (id now : Nat) (s : Scan) (h : lookupScan db id = some s)
    (hs : s.status = .completed ∨ s.status = .failed) :
    cancelScan db q id now = (.rejected, db, q) := by
  unfold cancelScan
  rw [h]
  simp [hs]

/-- C1 witness: the amended theorem at a concrete completed scan. -/
theorem cancel_rejects_completed_failed_witness :
    cancelScan [(1, completedScan)] [11] 1 7
      = (.rejected, [(1, completedScan)], [11]) :=
  cancel_rejects_completed_failed [(1, completedScan)] [11] 1 7
    completedScan rfl (Or.inl rfl)

/-! ## C2 — terminal statuses are (not) absorbing -/

/-- C2 counterexample.  The claim states that once a scan is terminal no
operation moves its status elsewhere.  `markScanCompleted` updates the
status unconditionally (`UPDATE scans SET status = 'completed' WHERE id =
$1`, no status guard), so applying it to a `cancelled` scan — exactly what
the worker does when it finishes a run whose scan was cancelled externally
mid-run — moves `cancelled` to `completed`. -/
theorem markScanCompleted_overrides_cancelled_cex :
    (lookupScan [(1, cancelledScan)] 1).map (·.status)
      = some ScanStatus.cancelled
    ∧ (lookupScan (markScanCompleted [(1, cancelledScan)] 1 7).1 1).map
        (·.status) = some ScanStatus.completed := by
  decide

/-- C2 (amended): progress writes never change any scan's status, and the
cancel endpoint never changes the state of a `completed` or `failed` scan;
but the orchestrator's completion/failure marking updates the status
unconditionally, so it can move even a terminal (e.g. `cancelled`) scan to
`completed` or `failed` — the counterexample exhibits this. -/
theorem terminal_status_amended :
    (∀ (db : ScanDB) (id : Nat) (p : ProgressFields),
      (lookupScan (updateScanProgress db id p).1 id).map (·.status)
        = (lookupScan db id).map (·.status))
    ∧ (∀ (db : ScanDB) (q : List Nat) (id now : Nat) (s : Scan),
        lookupScan db id = some s →
        s.status = .completed ∨ s.status = .failed →
        (cancelScan db q id now).2.1 = db) := by
  constructor
  · exact status_updateScanProgress
  · intro db q id now s h hs
    unfold cancelScan
    rw [h]
    simp [hs]

/-- C2 witness: both conjuncts of the amended theorem at concrete rows. -/
theorem terminal_status_amended_witness :
    ((lookupScan (updateScanProgress [(1, cancelledScan)] 1
        ⟨some 9, some 8, some 7, some 6⟩).1 1).map (·.status)
      = (lookupScan [(1, cancelledScan)] 1).map (·.status))
    ∧ (cancelScan [(1, completedScan)] [11] 1 7).2.1
        = [(1, completedScan)] :=
  ⟨terminal_status_amended.1 [(1, cancelledScan)] 1 ⟨some 9, some 8, some 7, some 6⟩,
   terminal_status_amended.2 [(1, completedScan)] [11] 1 7 completedScan rfl
     (Or.inl rfl)⟩

/-! ## C9 — upload retry backoff -/

/-- C9: against a blob store failing on every attempt, `uploadPhotoWithRetry`
with the default `maxRetries = 3` makes exactly 3 attempts, waits 1000 ms
after the first failure and 2000 ms after the second, and surfaces the
third attempt's error to the caller. -/
theorem upload_retry_backoff (f : Nat → Except String UploadOk)
    (errOf : Nat → String) (hf : ∀ n, f n = .error (errOf n)) :
    uploadPhotoWithRetry f 3 = (3, [1000, 2000], some (.error (errOf 3))) := by
  simp [uploadPhotoWithRetry, uploadRetryGo, hf]

/-- C9 witness: the theorem at a concrete always-failing store. -/
theorem upload_retry_backoff_witness :
    uploadPhotoWithRetry (fun n => .error (toString n)) 3
      = (3, [1000, 2000], some (.error (toString 3))) :=
  upload_retry_backoff (fun n => .error (toString n)) (fun n => toString n)
    (fun _ => rfl)

/-! ## C10 — `matchFace` totality -/

/-- C10: `matchFace` always resolves — for every buffer (`null`, empty, or
one the image decoder throws on) and every oracle it returns `.ok`, and on
each of those internal-error paths the result is the non-match triple
`isMatch = false`, `confidence = 0`, `facesDetected = 0`; a single match
evaluation can therefore never abort the pipeline by exception. -/
theorem matchFace_never_throws (so : List Nat → Except String (Nat × Nat))
    (descr : List ℚ) (r1 r2 : ℚ) (emb : List (List ℚ)) (buffer : JsBuffer) :
    (∃ r, matchFace so descr r1 r2 emb buffer = .ok r)
    ∧ (buffer = .null →
        matchFace so descr r1 r2 emb buffer
          = .ok { isMatch := false, confidence := 0, facesDetected := 0,
                  err := none })
    ∧ (∀ bytes, buffer = .buf bytes → bytes.length = 0 →
        matchFace so descr r1 r2 emb buffer
          = .ok { isMatch := false, confidence := 0, facesDetected := 0,
                  err := none })
    ∧ (∀ bytes e, buffer = .buf bytes → so bytes = .error e →
        matchFace so descr r1 r2 emb buffer
          = .ok { isMatch := false, confidence := 0, facesDetected := 0,
                  err := none }) := by
  refine ⟨?_, ?_, ?_, ?_⟩
  · obtain ⟨faces, hf⟩ := detectFaces_ok so descr buffer
    unfold matchFace
    rw [hf]
    by_cases h : faces.length = 0 <;> simp [h]
  · rintro rfl
    rfl
  · rintro bytes rfl hb
    simp [matchFace, detectFaces, detectFacesBody, hb]
  · rintro bytes e rfl hso
    by_cases hb : bytes.length = 0
    · simp [matchFace, detectFaces, detectFacesBody, hb]
    · simp [matchFace, detectFaces, detectFacesBody, hb, hso]

/-- C10 witness: the null, empty and undecodable cases at concrete
inputs. -/
theorem matchFace_never_throws_witness :
    (matchFace (fun _ => .error "bad image") [] (1/2) (1/2) [] .null
      = .ok { isMatch := false, confidence := 0, facesDetected := 0,
              err := none })
    ∧ (matchFace (fun _ => .error "bad image") [] (1/2) (1/2) [] (.buf [])
      = .ok { isMatch := false, confidence := 0, facesDetected := 0,
              err := none })
    ∧ (matchFace (fun _ => .error "bad image") [] (1/2) (1/2) []
        (.buf [1, 2, 3])
      = .ok { isMatch := false, confidence := 0, facesDetected := 0,
              err := none }) :=
  ⟨(matchFace_never_throws _ [] (1/2) (1/2) [] .null).2.1 rfl,
   (matchFace_never_throws _ [] (1/2) (1/2) [] (.buf [])).2.2.1 [] rfl rfl,
   (matchFace_never_throws _ [] (1/2) (1/2) [] (.buf [1, 2, 3])).2.2.2
     [1, 2, 3] "bad image" rfl rfl⟩

/-! ## Projection lemmas for the per-photo evaluation step -/

theorem evalPhoto_total (m : Nat → MatchResult) (c t : Nat)
    (st : WorkerState) (p : Photo) :
    (evalPhoto m c t st p).total = st.total := by
  by_cases h : (m p.id).isMatch <;>
    by_cases h2 : (st.scanned + 1) % 10 = 0 <;> simp [evalPhoto, h, h2]

theorem evalPhoto_scanned (m : Nat → MatchResult) (c t : Nat)
    (st : WorkerState) (p : Photo) :
    (evalPhoto m c t st p).scanned = st.scanned + 1 := by
  by_cases h : (m p.id).isMatch <;>
    by_cases h2 : (st.scanned + 1) % 10 = 0 <;> simp [evalPhoto, h, h2]

theorem evalPhoto_uploaded (m : Nat → MatchResult) (c t : Nat)
    (st : WorkerState) (p : Photo) :
    (evalPhoto m c t st p).uploaded = st.uploaded := by
  by_cases h : (m p.id).isMatch <;>
    by_cases h2 : (st.scanned + 1) % 10 = 0 <;> simp [evalPhoto, h, h2]

theorem evalPhoto_matched (m : Nat → MatchResult) (c t : Nat)
    (st : WorkerState) (p : Photo) :
    (evalPhoto m c t st p).matched
      = st.matched + (if (m p.id).isMatch then 1 else 0) := by
  by_cases h : (m p.id).isMatch <;>
    by_cases h2 : (st.scanned + 1) % 10 = 0 <;> simp [evalPhoto, h, h2]

theorem evalPhoto_matchedData (m : Nat → MatchResult) (c t : Nat)
    (st : WorkerState) (p : Photo) :
    (evalPhoto m c t st p).matchedData
      = if (m p.id).isMatch then
          st.matchedData ++
            [{ googlePhotoId := p.id, googlePhotoUrl := p.baseUrl,
               confidence := (m p.id).confidence, filename := p.filename }]
        else st.matchedData := by
  by_cases h : (m p.id).isMatch <;>
    by_cases h2 : (st.scanned + 1) % 10 = 0 <;> simp [evalPhoto, h, h2]

theorem evalPhoto_updates (m : Nat → MatchResult) (c t : Nat)
    (st : WorkerState) (p : Photo) :
    (evalPhoto m c t st p).updates
      = st.updates ++
        (if (st.scanned + 1) % 10 = 0 then
          [{ totalPhotos := st.total, scannedPhotos := st.scanned + 1,
             matchedPhotos :=
               st.matched + (if (m p.id).isMatch then 1 else 0),
             uploadedPhotos := st.uploaded, currentBatch := c,
             totalBatches := t }]
        else []) := by
  by_cases h : (m p.id).isMatch <;>
    by_cases h2 : (st.scanned + 1) % 10 = 0 <;> simp [evalPhoto, mkUpd, h, h2]

/-! ## C3 — match-list accumulation vs the configured threshold -/

/-- Case analysis of any resolved `matchFace` value: either no face was
found (or an internal error occurred) and the result is a zero-confidence
non-match, or the mock drew a match (`r1 > 0.3`) with confidence
`0.85 + r2 * 0.1`, or it drew a non-match with confidence
`0.3 + r2 * 0.2`. -/
theorem matchFace_result_cases (so : List Nat → Except String (Nat × Nat))
    (descr : List ℚ) (r1 r2 : ℚ) (emb : List (List ℚ)) (buffer : JsBuffer)
    (res : MatchResult)
    (hres : matchFace so descr r1 r2 emb buffer = .ok res) :
    (res.isMatch = false ∧ res.confidence = 0)
    ∨ (res.isMatch = true ∧ res.confidence = 85/100 + r2 * (1/10)
        ∧ (3 : ℚ)/10 < r1)
    ∨ (res.isMatch = false ∧ res.confidence = 3/10 + r2 * (2/10)
        ∧ ¬ (3 : ℚ)/10 < r1) := by
  obtain ⟨faces, hf⟩ := detectFaces_ok so descr buffer
  unfold matchFace at hres
  rw [hf] at hres
  dsimp only at hres
  split at hres
  · have h := Except.ok.inj hres
    left
    constructor <;> simp [← h]
  · by_cases hr1 : (3 : ℚ)/10 < r1
    · have h := Except.ok.inj hres
      right; left
      refine ⟨?_, ?_, hr1⟩ <;> simp [← h, hr1]
    · have h := Except.ok.inj hres
      right; right
      refine ⟨?_, ?_, hr1⟩ <;> simp [← h, hr1]

/-- C3: whenever the resolved `matchFace` value for a photo's thumbnail is
fed to the worker's per-photo step, the photo is appended to the match list
exactly when its evaluated confidence exceeds
`config.faceDetection.matchThreshold` — the configuration value (default
0.6); the worker itself branches only on `isMatch` and mentions no
threshold literal.  The random draws are constrained to `Math.random()`'s
range `[0, 1)`. -/
theorem match_list_iff_confidence_above_threshold
    (so : List Nat → Except String (Nat × Nat)) (descr : List ℚ)
    (r1 r2 : ℚ) (emb : List (List ℚ)) (buffer : JsBuffer)
    (res : MatchResult)
    (hres : matchFace so descr r1 r2 emb buffer = .ok res)
    (h0 : 0 ≤ r2) (h1 : r2 < 1)
    (m : Nat → MatchResult) (photo : Photo) (hm : m photo.id = res)
    (st : WorkerState) (curB totB : Nat) :
    ((evalPhoto m curB totB st photo).matchedData
        = st.matchedData ++
          [{ googlePhotoId := photo.id, googlePhotoUrl := photo.baseUrl,
             confidence := res.confidence, filename := photo.filename }]
      ↔ config.faceDetection.matchThreshold < res.confidence)
    ∧ (¬ config.faceDetection.matchThreshold < res.confidence →
        (evalPhoto m curB totB st photo).matchedData = st.matchedData) := by
  have hneq : ∀ (x : MatchedData),
      st.matchedData ≠ st.matchedData ++ [x] := by
    intro x hx
    have := congrArg List.length hx
    simp at this
  have hdata := evalPhoto_matchedData m curB totB st photo
  rw [hm] at hdata
  rcases matchFace_result_cases so descr r1 r2 emb buffer res hres with
    ⟨hi, hc⟩ | ⟨hi, hc, hr⟩ | ⟨hi, hc, hr⟩
  · rw [hi] at hdata
    simp only [Bool.false_eq_true, if_false] at hdata
    refine ⟨⟨fun habs => ?_, fun habs => ?_⟩, fun _ => hdata⟩
    · rw [hdata] at habs
      exact absurd habs (hneq _)
    · rw [hc] at habs
      exact absurd habs (by norm_num [config])
  · rw [hi] at hdata
    simp only [if_true] at hdata
    have haux : (0 : ℚ) ≤ r2 * (1/10) :=
      mul_nonneg h0 (by norm_num)
    have hgt : config.faceDetection.matchThreshold < res.confidence := by
      rw [hc]
      show (3 : ℚ)/5 < 85/100 + r2 * (1/10)
      linarith
    exact ⟨⟨fun _ => hgt, fun _ => by rw [hdata]⟩,
      fun habs => absurd hgt habs⟩
  · rw [hi] at hdata
    simp only [Bool.false_eq_true, if_false] at hdata
    have haux : r2 * (2/10) ≤ (2 : ℚ)/10 := by nlinarith
    have hng : ¬ config.faceDetection.matchThreshold < res.confidence := by
      rw [hc]
      show ¬ (3 : ℚ)/5 < 3/10 + r2 * (2/10)
      intro hlt
      linarith
    refine ⟨⟨fun habs => ?_, fun habs => absurd habs hng⟩, fun _ => hdata⟩
    rw [hdata] at habs
    exact absurd habs (hneq _)

/-- C3 witness: a matching draw (`r1 = 1/2 > 0.3`, `r2 = 1/2`) on a
decodable buffer appends the photo, and its confidence `0.9` is above the
threshold `0.6`. -/
theorem match_list_iff_confidence_above_threshold_witness :
    (evalPhoto (fun _ => sampleMatch) 1 1
        { total := 1, scanned := 0, matched := 0, uploaded := 0,
          matchedData := [], updates := [] }
        ⟨5, "base", "img"⟩).matchedData
      = [{ googlePhotoId := 5, googlePhotoUrl := "base",
           confidence := sampleMatch.confidence, filename := "img" }] := by
  have h := (match_list_iff_confidence_above_threshold
    (fun _ => .ok (8, 6)) [] (1/2) (1/2) [] (.buf [1]) sampleMatch
    (by simp only [matchFace, detectFaces, detectFacesBody, sampleMatch]
        norm_num) (by norm_num) (by norm_num) (fun _ => sampleMatch)
    ⟨5, "base", "img"⟩ rfl
    { total := 1, scanned := 0, matched := 0, uploaded := 0,
      matchedData := [], updates := [] } 1 1).1.mpr
    (by norm_num [config, sampleMatch])
  simpa using h

/-! ## C5 — a missing scan at step 1 -/

/-- C5 counterexample.  The claim states the run fails fast with an error
and performs no further pipeline steps when no scan with the given id
exists.  With an empty scans table, `markScanStarted`'s UPDATE matches zero
rows and returns no row — but no error is raised, and the run proceeds
through enumeration and the whole batch stage, finishing with a success
return value.  (`decrypt` operates on the job's own payload and is
independent of the scan row.) -/
theorem missing_scan_run_proceeds_cex :
    lookupScan ([] : ScanDB) 1 = none
    ∧ (processScan config sampleEnv7 1 7 []).batchStageRan = true
    ∧ (processScan config sampleEnv7 1 7 []).ret
        = { success := true, totalPhotos := 7, scannedPhotos := 7,
            matchedPhotos := 0, uploadedPhotos := 0 } := by
  refine ⟨rfl, ?_, ?_⟩ <;> rfl

/-- C5 (amended): when the scan id matches no row, `markScanStarted`
leaves the table unchanged and returns no row, raising no error; and the
run's observable pipeline behaviour (progress updates, upload results,
inserted rows, return value, stages entered) does not depend on the scans
table at all — in particular a missing scan does not abort the run.  Only
a thrown database error (not modelled: it would take the catch branch to
`markScanFailed`) aborts remaining steps. -/
theorem markScanStarted_missing_amended :
    (∀ (db : ScanDB) (id now : Nat), lookupScan db id = none →
        markScanStarted db id now = (db, none))
    ∧ (∀ (cfg : Config) (env : Env) (id now : Nat) (db db' : ScanDB),
        (processScan cfg env id now db).updates
            = (processScan cfg env id now db').updates
        ∧ (processScan cfg env id now db).uploadResults
            = (processScan cfg env id now db').uploadResults
        ∧ (processScan cfg env id now db).rows
            = (processScan cfg env id now db').rows
        ∧ (processScan cfg env id now db).ret
            = (processScan cfg env id now db').ret
        ∧ (processScan cfg env id now db).batchStageRan
            = (processScan cfg env id now db').batchStageRan
        ∧ (processScan cfg env id now db).originalsStageRan
            = (processScan cfg env id now db').originalsStageRan
        ∧ (processScan cfg env id now db).finalUploaded
            = (processScan cfg env id now db').finalUploaded) := by
  constructor
  · intro db id now h
    have hu := updateRow_absent db id
      (fun s => { s with status := .processing, startedAt := some now }) h
    simp [markScanStarted, hu, h]
  · intro cfg env id now db db'
    refine ⟨?_, ?_, ?_, ?_, ?_, ?_, ?_⟩ <;>
      · simp only [processScan]
        split
        · rfl
        · split <;> rfl

/-- C5 witness: the amended theorem at an empty table and at two concrete
tables differing in the scan row. -/
theorem markScanStarted_missing_amended_witness :
    markScanStarted [] 1 7 = ([], none)
    ∧ (processScan config sampleEnv7 1 7 []).ret
        = (processScan config sampleEnv7 1 7 [(1, pendingScan)]).ret :=
  ⟨markScanStarted_missing_amended.1 [] 1 7 rfl,
   (markScanStarted_missing_amended.2 config sampleEnv7 1 7 []
      [(1, pendingScan)]).2.2.2.1⟩

/-! ## Ordering and chain infrastructure -/

theorem cLe_refl (u : ProgressUpdate) : cLe u u :=
  ⟨le_refl _, le_refl _, le_refl _, le_refl _⟩

theorem cLe_trans {u v w : ProgressUpdate} (h1 : cLe u v) (h2 : cLe v w) :
    cLe u w :=
  ⟨le_trans h1.1 h2.1, le_trans h1.2.1 h2.2.1, le_trans h1.2.2.1 h2.2.2.1,
    le_trans h1.2.2.2 h2.2.2.2⟩

theorem mem_of_mem_getLast? {l : List ProgressUpdate} {a : ProgressUpdate}
    (h : a ∈ l.getLast?) : a ∈ l := by
  obtain ⟨hne, rfl⟩ := List.mem_getLast?_eq_getLast h
  exact List.getLast_mem hne

/-- Lowering the head of a chain preserves the chain. -/
theorem chain'_cons_of_le {a b : ProgressUpdate} {l : List ProgressUpdate}
    (hab : cLe a b) (h : List.Chain' cLe (b :: l)) :
    List.Chain' cLe (a :: l) := by
  rcases l with _ | ⟨c, l⟩
  · exact List.chain'_singleton a
  · rw [List.chain'_cons] at h ⊢
    exact ⟨cLe_trans hab h.1, h.2⟩

/-- Gluing two chains that share a pivot `b` dominating the first tail. -/
theorem chain'_glue {a b : ProgressUpdate} {t1 t2 : List ProgressUpdate}
    (h1 : List.Chain' cLe (a :: t1)) (h2 : List.Chain' cLe (b :: t2))
    (hab : cLe a b) (ht1 : ∀ u ∈ t1, cLe u b) :
    List.Chain' cLe (a :: (t1 ++ t2)) := by
  have hparts := List.chain'_cons'.mp h2
  show List.Chain' cLe ((a :: t1) ++ t2)
  rw [List.chain'_append]
  refine ⟨h1, hparts.2, ?_⟩
  intro x hx y hy
  have hxb : cLe x b := by
    rcases List.mem_cons.mp (mem_of_mem_getLast? hx) with rfl | h
    · exact hab
    · exact ht1 x h
  exact cLe_trans hxb (hparts.1 y hy)

/-! ## Slicing lemmas -/

theorem chunks_flatten_aux (k : Nat) :
    ∀ (n : Nat) (l : List α), l.length ≤ n →
      (chunks (k + 1) l).flatten = l := by
  intro n
  induction n with
  | zero =>
    intro l hl
    match l with
    | [] => rfl
    | x :: xs => simp at hl
  | succ n ih =>
    intro l hl
    match l with
    | [] => rfl
    | x :: xs =>
      rw [chunks_cons]
      simp only [List.flatten_cons, Nat.add_sub_cancel]
      rw [ih (xs.drop k) (by
        simp only [List.length_drop]
        simp only [List.length_cons] at hl
        omega)]
      show x :: (xs.take k ++ xs.drop k) = x :: xs
      rw [List.take_append_drop]

/-- For a positive batch size the slices reassemble to the original list
(the JS loop visits every element exactly once). -/
theorem chunks_flatten (bs : Nat) (hbs : 0 < bs) (l : List α) :
    (chunks bs l).flatten = l := by
  obtain ⟨k, rfl⟩ : ∃ k, bs = k + 1 := ⟨bs - 1, by omega⟩
  exact chunks_flatten_aux k l.length l (le_refl _)

/-! ## Push-point lemmas -/

theorem mem_pushPoints :
    ∀ (n a k : Nat), k ∈ pushPoints a n ↔ a < k ∧ k ≤ a + n ∧ k % 10 = 0 := by
  intro n
  induction n with
  | zero =>
    intro a k
    simp only [pushPoints, List.not_mem_nil, false_iff]
    omega
  | succ n ih =>
    intro a k
    simp only [pushPoints, List.mem_append, ih]
    by_cases h : (a + 1) % 10 = 0 <;> simp only [h, if_true, if_false] <;>
      simp [List.mem_singleton] <;> omega

theorem pushPoints_append :
    ∀ (n m a : Nat),
      pushPoints a n ++ pushPoints (a + n) m = pushPoints a (n + m) := by
  intro n
  induction n with
  | zero =>
    intro m a
    simp [pushPoints]
  | succ n ih =>
    intro m a
    have e : n + 1 + m = (n + m) + 1 := by omega
    rw [e]
    show ((if (a + 1) % 10 = 0 then [a + 1] else [])
          ++ pushPoints (a + 1) n) ++ pushPoints (a + (n + 1)) m
        = (if (a + 1) % 10 = 0 then [a + 1] else [])
          ++ pushPoints (a + 1) (n + m)
    rw [List.append_assoc]
    congr 1
    have e2 : a + (n + 1) = (a + 1) + n := by omega
    rw [e2, ih]

/-- A `filterMap` whose function succeeds on every element keeps the
length. -/
theorem length_filterMap_isSome {α β : Type} (f : α → Option β) :
    ∀ (l : List α), (∀ x ∈ l, (f x).isSome) →
      (l.filterMap f).length = l.length := by
  intro l
  induction l with
  | nil => intro _; rfl
  | cons x xs ih =>
    intro h
    rcases hfx : f x with _ | b
    · have := h x (List.mem_cons_self x xs)
      rw [hfx] at this
      simp at this
    · rw [List.filterMap_cons_some hfx]
      simp only [List.length_cons]
      rw [ih (fun y hy => h y (List.mem_cons_of_mem x hy))]

/-! ## The batch-stage fold: counters and updates -/

theorem foldEval_total (m : Nat → MatchResult) (c t : Nat) :
    ∀ (l : List Photo) (st : WorkerState),
      (l.foldl (evalPhoto m c t) st).total = st.total := by
  intro l
  induction l with
  | nil => intro st; rfl
  | cons x xs ih =>
    intro st
    rw [List.foldl_cons, ih, evalPhoto_total]

theorem foldEval_scanned (m : Nat → MatchResult) (c t : Nat) :
    ∀ (l : List Photo) (st : WorkerState),
      (l.foldl (evalPhoto m c t) st).scanned = st.scanned + l.length := by
  intro l
  induction l with
  | nil => intro st; rfl
  | cons x xs ih =>
    intro st
    rw [List.foldl_cons, ih, evalPhoto_scanned, List.length_cons]
    omega

theorem foldEval_uploaded (m : Nat → MatchResult) (c t : Nat) :
    ∀ (l : List Photo) (st : WorkerState),
      (l.foldl (evalPhoto m c t) st).uploaded = st.uploaded := by
  intro l
  induction l with
  | nil => intro st; rfl
  | cons x xs ih =>
    intro st
    rw [List.foldl_cons, ih, evalPhoto_uploaded]

theorem foldEval_matched_le (m : Nat → MatchResult) (c t : Nat) :
    ∀ (l : List Photo) (st : WorkerState),
      st.matched ≤ (l.foldl (evalPhoto m c t) st).matched := by
  intro l
  induction l with
  | nil => intro st; exact le_refl _
  | cons x xs ih =>
    intro st
    rw [List.foldl_cons]
    refine le_trans ?_ (ih _)
    rw [evalPhoto_matched]
    omega

/-- The counters of the state after one evaluation step. -/
theorem cnt_evalPhoto (m : Nat → MatchResult) (c t : Nat)
    (st : WorkerState) (p : Photo) :
    cnt (evalPhoto m c t st p)
      = { totalPhotos := st.total, scannedPhotos := st.scanned + 1,
          matchedPhotos :=
            st.matched + (if (m p.id).isMatch then 1 else 0),
          uploadedPhotos := st.uploaded, currentBatch := 0,
          totalBatches := 0 } := by
  simp [cnt, evalPhoto_total, evalPhoto_scanned, evalPhoto_matched,
    evalPhoto_uploaded]

theorem cnt_le_foldEval (m : Nat → MatchResult) (c t : Nat)
    (l : List Photo) (st : WorkerState) :
    cLe (cnt st) (cnt (l.foldl (evalPhoto m c t) st)) := by
  refine ⟨le_of_eq ?_, ?_, ?_, le_of_eq ?_⟩
  · exact (foldEval_total m c t l st).symm
  · show st.scanned ≤ (l.foldl (evalPhoto m c t) st).scanned
    rw [foldEval_scanned]
    omega
  · exact foldEval_matched_le m c t l st
  · exact (foldEval_uploaded m c t l st).symm

/-- The updates appended by evaluating a list of downloaded photos: they
form a chain above the starting counters, stay below the final counters,
and their scanned counts lie in the window opened by the fold. -/
theorem foldEval_updates (m : Nat → MatchResult) (c t : Nat) :
    ∀ (l : List Photo) (st : WorkerState),
      ∃ tail : List ProgressUpdate,
        (l.foldl (evalPhoto m c t) st).updates = st.updates ++ tail
        ∧ List.Chain' cLe (cnt st :: tail)
        ∧ (∀ u ∈ tail, cLe u (cnt (l.foldl (evalPhoto m c t) st)))
        ∧ (∀ u ∈ tail, u.totalPhotos = st.total
            ∧ st.scanned < u.scannedPhotos
            ∧ u.scannedPhotos ≤ st.scanned + l.length) := by
  intro l
  induction l with
  | nil =>
    intro st
    exact ⟨[], by simp, List.chain'_singleton _, by simp, by simp⟩
  | cons x xs ih =>
    intro st
    obtain ⟨tail1, h1, h2, h3, h4⟩ := ih (evalPhoto m c t st x)
    have hcnt1 := cnt_evalPhoto m c t st x
    by_cases hp : (st.scanned + 1) % 10 = 0
    · refine ⟨{ totalPhotos := st.total, scannedPhotos := st.scanned + 1,
                matchedPhotos :=
                  st.matched + (if (m x.id).isMatch then 1 else 0),
                uploadedPhotos := st.uploaded, currentBatch := c,
                totalBatches := t } :: tail1, ?_, ?_, ?_, ?_⟩
      · show (xs.foldl (evalPhoto m c t) (evalPhoto m c t st x)).updates = _
        rw [h1, evalPhoto_updates, if_pos hp, List.append_assoc]
        rfl
      · refine List.chain'_cons.mpr ⟨?_, ?_⟩
        · exact ⟨le_refl _, Nat.le_succ _, Nat.le_add_right _ _, le_refl _⟩
        · refine chain'_cons_of_le ?_ h2
          rw [hcnt1]
          exact ⟨le_refl _, le_refl _, le_refl _, le_refl _⟩
      · intro u hu
        rcases List.mem_cons.mp hu with rfl | hu
        · refine cLe_trans ?_ (cnt_le_foldEval m c t xs (evalPhoto m c t st x))
          rw [hcnt1]
          exact ⟨le_refl _, le_refl _, le_refl _, le_refl _⟩
        · exact h3 u hu
      · intro u hu
        rcases List.mem_cons.mp hu with rfl | hu
        · refine ⟨rfl, Nat.lt_succ_self _, ?_⟩
          simp only [List.length_cons]
          omega
        · obtain ⟨hb1, hb2, hb3⟩ := h4 u hu
          rw [evalPhoto_total] at hb1
          rw [evalPhoto_scanned] at hb2 hb3
          exact ⟨hb1, by omega, by simp only [List.length_cons]; omega⟩
    · refine ⟨tail1, ?_, ?_, ?_, ?_⟩
      · show (xs.foldl (evalPhoto m c t) (evalPhoto m c t st x)).updates = _
        rw [h1, evalPhoto_updates, if_neg hp, List.append_nil]
      · refine chain'_cons_of_le ?_ h2
        rw [hcnt1]
        exact ⟨le_refl _, Nat.le_succ _, Nat.le_add_right _ _, le_refl _⟩
      · exact h3
      · intro u hu
        obtain ⟨hb1, hb2, hb3⟩ := h4 u hu
        rw [evalPhoto_total] at hb1
        rw [evalPhoto_scanned] at hb2 hb3
        exact ⟨hb1, by omega, by simp only [List.length_cons]; omega⟩

/-- The scanned counts at which the fold pushes updates are exactly the
push points of the window it advances through. -/
theorem foldEval_pushes (m : Nat → MatchResult) (c t : Nat) :
    ∀ (l : List Photo) (st : WorkerState),
      ((l.foldl (evalPhoto m c t) st).updates).map (·.scannedPhotos)
        = st.updates.map (·.scannedPhotos)
          ++ pushPoints st.scanned l.length := by
  intro l
  induction l with
  | nil => intro st; simp [pushPoints]
  | cons x xs ih =>
    intro st
    rw [List.foldl_cons, ih, evalPhoto_updates, evalPhoto_scanned]
    rw [List.map_append, List.append_assoc]
    congr 1
    show _ ++ pushPoints (st.scanned + 1) xs.length
        = pushPoints st.scanned (x :: xs).length
    rw [List.length_cons, show xs.length + 1 = 1 + xs.length from by omega,
      ← pushPoints_append]
    congr 1
    by_cases hp : (st.scanned + 1) % 10 = 0
    · rw [if_pos hp]
      show _ = (if (st.scanned + 1) % 10 = 0 then [st.scanned + 1] else [])
        ++ pushPoints (st.scanned + 1) 0
      rw [if_pos hp]
      rfl
    · rw [if_neg hp]
      show _ = (if (st.scanned + 1) % 10 = 0 then [st.scanned + 1] else [])
        ++ pushPoints (st.scanned + 1) 0
      rw [if_neg hp]
      rfl

/-! ## The batch loop: counters and updates across batches -/

theorem dSum_cons (dl : Nat → Bool) (b : List Photo)
    (bs' : List (List Photo)) :
    dSum dl (b :: bs')
      = (b.filter (fun p => dl p.id)).length + dSum dl bs' := by
  simp [dSum]

/-- Every batch evaluates at most its own length, so the evaluated total is
at most the flattened length. -/
theorem dSum_le_flatten (dl : Nat → Bool) :
    ∀ (bs' : List (List Photo)), dSum dl bs' ≤ bs'.flatten.length := by
  intro bs'
  induction bs' with
  | nil => exact le_refl _
  | cons b bs ih =>
    rw [dSum_cons]
    simp only [List.flatten_cons, List.length_append]
    have := List.length_filter_le (fun p => dl p.id) b
    omega

theorem runBatches_total (m : Nat → MatchResult) (dl : Nat → Bool)
    (tB : Nat) :
    ∀ (bs' : List (List Photo)) (i : Nat) (st : WorkerState),
      (runBatches m dl tB i st bs').total = st.total := by
  intro bs'
  induction bs' with
  | nil => intro i st; rfl
  | cons b bs ih =>
    intro i st
    show (runBatches m dl tB (i + 1) (runBatch m dl tB i st b) bs).total = _
    rw [ih, runBatch, foldEval_total]

theorem runBatches_scanned (m : Nat → MatchResult) (dl : Nat → Bool)
    (tB : Nat) :
    ∀ (bs' : List (List Photo)) (i : Nat) (st : WorkerState),
      (runBatches m dl tB i st bs').scanned = st.scanned + dSum dl bs' := by
  intro bs'
  induction bs' with
  | nil => intro i st; simp [dSum, runBatches]
  | cons b bs ih =>
    intro i st
    show (runBatches m dl tB (i + 1) (runBatch m dl tB i st b) bs).scanned = _
    rw [ih, runBatch, foldEval_scanned, dSum_cons]
    omega

theorem runBatches_uploaded (m : Nat → MatchResult) (dl : Nat → Bool)
    (tB : Nat) :
    ∀ (bs' : List (List Photo)) (i : Nat) (st : WorkerState),
      (runBatches m dl tB i st bs').uploaded = st.uploaded := by
  intro bs'
  induction bs' with
  | nil => intro i st; rfl
  | cons b bs ih =>
    intro i st
    show (runBatches m dl tB (i + 1) (runBatch m dl tB i st b) bs).uploaded = _
    rw [ih, runBatch, foldEval_uploaded]

theorem runBatches_matched_le (m : Nat → MatchResult) (dl : Nat → Bool)
    (tB : Nat) :
    ∀ (bs' : List (List Photo)) (i : Nat) (st : WorkerState),
      st.matched ≤ (runBatches m dl tB i st bs').matched := by
  intro bs'
  induction bs' with
  | nil => intro i st; exact le_refl _
  | cons b bs ih =>
    intro i st
    show st.matched
        ≤ (runBatches m dl tB (i + 1) (runBatch m dl tB i st b) bs).matched
    refine le_trans ?_ (ih _ _)
    rw [runBatch]
    exact foldEval_matched_le m i tB _ st

theorem cnt_le_runBatches (m : Nat → MatchResult) (dl : Nat → Bool)
    (tB : Nat) (bs' : List (List Photo)) (i : Nat) (st : WorkerState) :
    cLe (cnt st) (cnt (runBatches m dl tB i st bs')) := by
  refine ⟨le_of_eq ?_, ?_, ?_, le_of_eq ?_⟩
  · exact (runBatches_total m dl tB bs' i st).symm
  · show st.scanned ≤ (runBatches m dl tB i st bs').scanned
    rw [runBatches_scanned]
    omega
  · exact runBatches_matched_le m dl tB bs' i st
  · exact (runBatches_uploaded m dl tB bs' i st).symm

/-- The updates appended by the whole batch loop. -/
theorem runBatches_updates (m : Nat → MatchResult) (dl : Nat → Bool)
    (tB : Nat) :
    ∀ (bs' : List (List Photo)) (i : Nat) (st : WorkerState),
      ∃ tail : List ProgressUpdate,
        (runBatches m dl tB i st bs').updates = st.updates ++ tail
        ∧ List.Chain' cLe (cnt st :: tail)
        ∧ (∀ u ∈ tail, cLe u (cnt (runBatches m dl tB i st bs')))
        ∧ (∀ u ∈ tail, u.totalPhotos = st.total
            ∧ st.scanned < u.scannedPhotos
            ∧ u.scannedPhotos ≤ st.scanned + dSum dl bs') := by
  intro bs'
  induction bs' with
  | nil =>
    intro i st
    exact ⟨[], by simp [runBatches], List.chain'_singleton _, by simp,
      by simp⟩
  | cons b bs ih =>
    intro i st
    obtain ⟨tailb, hb1, hb2, hb3, hb4⟩ :=
      foldEval_updates m i tB (b.filter (fun p => dl p.id)) st
    obtain ⟨tailr, hr1, hr2, hr3, hr4⟩ := ih (i + 1) (runBatch m dl tB i st b)
    refine ⟨tailb ++ tailr, ?_, ?_, ?_, ?_⟩
    · show (runBatches m dl tB (i + 1) (runBatch m dl tB i st b) bs).updates
          = _
      rw [hr1]
      show (runBatch m dl tB i st b).updates ++ tailr = _
      rw [runBatch, hb1, List.append_assoc]
    · refine chain'_glue hb2 hr2 ?_ ?_
      · exact cnt_le_foldEval m i tB _ st
      · intro u hu
        exact hb3 u hu
    · intro u hu
      rcases List.mem_append.mp hu with hu | hu
      · refine cLe_trans (hb3 u hu) ?_
        show cLe (cnt (runBatch m dl tB i st b)) _
        exact cnt_le_runBatches m dl tB bs (i + 1) _
      · exact hr3 u hu
    · intro u hu
      have hfl : (b.filter (fun p => dl p.id)).length ≤ dSum dl (b :: bs) := by
        rw [dSum_cons]
        omega
      rcases List.mem_append.mp hu with hu | hu
      · obtain ⟨x1, x2, x3⟩ := hb4 u hu
        exact ⟨x1, x2, by omega⟩
      · obtain ⟨x1, x2, x3⟩ := hr4 u hu
        rw [show (runBatch m dl tB i st b).total = st.total from
          foldEval_total m i tB _ st] at x1
        rw [show (runBatch m dl tB i st b).scanned
            = st.scanned + (b.filter (fun p => dl p.id)).length from
          foldEval_scanned m i tB _ st] at x2 x3
        rw [dSum_cons]
        exact ⟨x1, by omega, by omega⟩

/-- The scanned counts at which the batch loop pushes updates. -/
theorem runBatches_pushes (m : Nat → MatchResult) (dl : Nat → Bool)
    (tB : Nat) :
    ∀ (bs' : List (List Photo)) (i : Nat) (st : WorkerState),
      ((runBatches m dl tB i st bs').updates).map (·.scannedPhotos)
        = st.updates.map (·.scannedPhotos)
          ++ pushPoints st.scanned (dSum dl bs') := by
  intro bs'
  induction bs' with
  | nil => intro i st; simp [runBatches, pushPoints, dSum]
  | cons b bs ih =>
    intro i st
    show ((runBatches m dl tB (i + 1) (runBatch m dl tB i st b) bs).updates).map
        (·.scannedPhotos) = _
    rw [ih, runBatch, foldEval_pushes, foldEval_scanned, List.append_assoc,
      pushPoints_append, dSum_cons]

/-! ## Enumeration-stage updates -/

theorem pageUpdates_props :
    ∀ (ps : List (List Photo)) (acc : Nat),
      ∀ u ∈ pageUpdates ps acc,
        u.scannedPhotos = 0 ∧ u.matchedPhotos = 0 ∧ u.uploadedPhotos = 0
        ∧ acc ≤ u.totalPhotos
        ∧ u.totalPhotos ≤ acc + ps.flatten.length := by
  intro ps
  induction ps with
  | nil => intro acc u hu; simp [pageUpdates] at hu
  | cons pg pgs ih =>
    intro acc u hu
    rcases List.mem_cons.mp hu with rfl | hu
    · refine ⟨rfl, rfl, rfl, by dsimp only; omega, ?_⟩
      dsimp only
      simp only [List.flatten_cons, List.length_append]
      omega
    · obtain ⟨x1, x2, x3, x4, x5⟩ := ih (acc + pg.length) u hu
      refine ⟨x1, x2, x3, by omega, ?_⟩
      simp only [List.flatten_cons, List.length_append]
      omega

theorem pageUpdates_chain :
    ∀ (ps : List (List Photo)) (acc : Nat),
      List.Chain' cLe (pageUpdates ps acc) := by
  intro ps
  induction ps with
  | nil => intro acc; exact List.chain'_nil
  | cons pg pgs ih =>
    intro acc
    refine List.chain'_cons'.mpr ⟨?_, ih (acc + pg.length)⟩
    intro y hy
    obtain ⟨x1, x2, x3, x4, _⟩ :=
      pageUpdates_props pgs (acc + pg.length) y (List.mem_of_mem_head? hy)
    refine ⟨?_, ?_, ?_, ?_⟩ <;> dsimp only <;> omega

/-! ## Upload-stage results and updates -/

theorem runUploads_ids (upOk : Nat → Bool) (upUrl upKey : Nat → String)
    (base : WorkerState) (tB : Nat) :
    ∀ (l : List Photo) (c : Nat),
      ((runUploads upOk upUrl upKey base tB c l).1).map (·.originalId)
        = l.map (·.id) := by
  intro l
  induction l with
  | nil => intro c; rfl
  | cons p ps ih =>
    intro c
    by_cases h : upOk p.id <;> simp [runUploads, h, ih]

theorem runUploads_success_count (upOk : Nat → Bool)
    (upUrl upKey : Nat → String) (base : WorkerState) (tB : Nat) :
    ∀ (l : List Photo) (c : Nat),
      (((runUploads upOk upUrl upKey base tB c l).1).filter
          (·.success)).length
        = (l.filter (fun p => upOk p.id)).length := by
  intro l
  induction l with
  | nil => intro c; rfl
  | cons p ps ih =>
    intro c
    by_cases h : upOk p.id <;> simp [runUploads, h, ih, List.filter_cons]

theorem runUploads_chain (upOk : Nat → Bool) (upUrl upKey : Nat → String)
    (base : WorkerState) (tB : Nat) :
    ∀ (l : List Photo) (c : Nat),
      List.Chain' cLe
        ({ totalPhotos := base.total, scannedPhotos := base.scanned,
           matchedPhotos := base.matched, uploadedPhotos := c,
           currentBatch := 0, totalBatches := 0 }
          :: (runUploads upOk upUrl upKey base tB c l).2) := by
  intro l
  induction l with
  | nil => intro c; exact List.chain'_singleton _
  | cons p ps ih =>
    intro c
    by_cases h : upOk p.id
    · have hrest := ih (c + 1)
      simp only [runUploads, h, if_true]
      refine List.chain'_cons.mpr ⟨⟨le_refl _, le_refl _, le_refl _,
        Nat.le_succ _⟩, ?_⟩
      refine chain'_cons_of_le ?_ hrest
      exact ⟨le_refl _, le_refl _, le_refl _, le_refl _⟩
    · have hrest := ih c
      simp only [runUploads, h, if_false]
      exact hrest

theorem runUploads_us_props (upOk : Nat → Bool) (upUrl upKey : Nat → String)
    (base : WorkerState) (tB : Nat) :
    ∀ (l : List Photo) (c : Nat),
      ∀ u ∈ (runUploads upOk upUrl upKey base tB c l).2,
        u.totalPhotos = base.total ∧ u.scannedPhotos = base.scanned
        ∧ u.matchedPhotos = base.matched
        ∧ u.uploadedPhotos ≤ c + (l.filter (fun p => upOk p.id)).length := by
  intro l
  induction l with
  | nil => intro c u hu; simp [runUploads] at hu
  | cons p ps ih =>
    intro c u hu
    by_cases h : upOk p.id
    · simp only [runUploads, h, if_true, List.mem_cons] at hu
      rcases hu with rfl | hu
      · refine ⟨rfl, rfl, rfl, ?_⟩
        dsimp only
        rw [List.filter_cons, if_pos h]
        simp only [List.length_cons]
        omega
      · obtain ⟨x1, x2, x3, x4⟩ := ih (c + 1) u hu
        refine ⟨x1, x2, x3, ?_⟩
        rw [List.filter_cons, if_pos h]
        simp only [List.length_cons]
        omega
    · simp only [runUploads, h, if_false] at hu
      obtain ⟨x1, x2, x3, x4⟩ := ih c u hu
      refine ⟨x1, x2, x3, ?_⟩
      rw [List.filter_cons, if_neg (by simpa using h)]
      exact x4

/-! ## Durable progress writes -/

/-- Every `updateProgress` call from the worker carries all four counters,
so the durable write is an overwrite. -/
theorem lookup_applyUpdates (id : Nat) :
    ∀ (us : List ProgressUpdate) (db : ScanDB),
      lookupScan (applyUpdates db id us) id
        = (lookupScan db id).map (fun s => us.foldl overwriteCounters s) := by
  intro us
  induction us with
  | nil =>
    intro db
    show lookupScan db id = _
    cases lookupScan db id <;> rfl
  | cons u us ih =>
    intro db
    show lookupScan (applyUpdates ((updateScanProgress db id
      { totalPhotos := some u.totalPhotos,
        scannedPhotos := some u.scannedPhotos,
        matchedPhotos := some u.matchedPhotos,
        uploadedPhotos := some u.uploadedPhotos }).1) id us) id = _
    rw [ih]
    unfold updateScanProgress
    dsimp only
    rw [lookup_updateRow]
    cases lookupScan db id <;> rfl

theorem foldl_overwrite_append_last (s : Scan) (pre : List ProgressUpdate)
    (u : ProgressUpdate) :
    ((pre ++ [u]).foldl overwriteCounters s).uploadedPhotos
      = u.uploadedPhotos := by
  rw [List.foldl_append]
  rfl

theorem foldl_overwrite_uploaded_zero :
    ∀ (us : List ProgressUpdate) (s : Scan),
      (∀ u ∈ us, u.uploadedPhotos = 0) → s.uploadedPhotos = 0 →
      (us.foldl overwriteCounters s).uploadedPhotos = 0 := by
  intro us
  induction us with
  | nil => intro s _ hs; exact hs
  | cons u us ih =>
    intro s h hs
    refine ih (overwriteCounters s u) (fun v hv => h v (by simp [hv])) ?_
    show u.uploadedPhotos = 0
    exact h u (List.mem_cons_self u us)

theorem uploaded_markScanStarted (db : ScanDB) (id now : Nat) :
    (lookupScan (markScanStarted db id now).1 id).map (·.uploadedPhotos)
      = (lookupScan db id).map (·.uploadedPhotos) := by
  unfold markScanStarted
  dsimp only
  rw [lookup_updateRow]
  cases lookupScan db id <;> rfl

theorem uploaded_markScanCompleted (db : ScanDB) (id now : Nat) :
    (lookupScan (markScanCompleted db id now).1 id).map (·.uploadedPhotos)
      = (lookupScan db id).map (·.uploadedPhotos) := by
  unfold markScanCompleted
  dsimp only
  rw [lookup_updateRow]
  cases lookupScan db id <;> rfl

theorem status_markScanCompleted (db : ScanDB) (id now : Nat) :
    (lookupScan (markScanCompleted db id now).1 id).map (·.status)
      = (lookupScan db id).map (fun _ => ScanStatus.completed) := by
  unfold markScanCompleted
  dsimp only
  rw [lookup_updateRow]
  cases lookupScan db id <;> rfl

/-! ## Record construction -/

/-- Unfolding membership in the constructed rows: every row comes from a
successful upload result and carries its id, url and key. -/
theorem photoRecordsOf_mem (scanId : Nat) (mdata : List MatchedData)
    (results : List UploadResult) (r : PhotoRecord)
    (hr : r ∈ photoRecordsOf scanId mdata results) :
    ∃ u ∈ results, u.success = true ∧ r.googlePhotoId = u.originalId
      ∧ r.s3Url = u.url ∧ r.s3Key = u.key := by
  unfold photoRecordsOf at hr
  obtain ⟨a, ha, hfa⟩ := List.mem_filterMap.mp hr
  have hmem : a ∈ results := List.mem_of_mem_filter ha
  have hsucc : a.success = true := by
    have := List.of_mem_filter ha
    simpa using this
  rcases hfind : mdata.find? (fun m => m.googlePhotoId = a.originalId) with
    _ | m
  · rw [hfind] at hfa
    simp at hfa
  · rw [hfind] at hfa
    simp only [Option.map_some'] at hfa
    have hfa' := Option.some.inj hfa
    refine ⟨a, hmem, hsucc, ?_, ?_, ?_⟩ <;> rw [← hfa']

/-- When the lookup into `matchedPhotosData` succeeds for every successful
result, the rows are in bijection with the successful results. -/
theorem photoRecordsOf_length (scanId : Nat) (mdata : List MatchedData)
    (results : List UploadResult)
    (h : ∀ r ∈ results.filter (·.success),
      (mdata.find? (fun m => m.googlePhotoId = r.originalId)).isSome) :
    (photoRecordsOf scanId mdata results).length
      = (results.filter (·.success)).length := by
  unfold photoRecordsOf
  refine length_filterMap_isSome _ _ ?_
  intro r hr
  have := h r hr
  rcases hfind : mdata.find? (fun m => m.googlePhotoId = r.originalId) with
    _ | m
  · rw [hfind] at this
    simp at this
  · rw [hfind]
    rfl

/-! ## Assembly: the enumeration + batch stages followed by a tail -/

/-- Chains and the `scanned ≤ total` bound for the update list of a run
whose state starts with the enumeration updates and the initial update,
followed by an arbitrary well-behaved tail. -/
theorem batch_stage_chain_bounds (m : Nat → MatchResult) (dl : Nat → Bool)
    (tB : Nat) (bs' : List (List Photo)) (st0 : WorkerState)
    (u0 : ProgressUpdate) (enum : List ProgressUpdate)
    (hupd : st0.updates = enum ++ [u0])
    (henum : ∀ u ∈ enum, u.scannedPhotos = 0 ∧ u.matchedPhotos = 0
        ∧ u.uploadedPhotos = 0 ∧ u.totalPhotos ≤ st0.total)
    (henumch : List.Chain' cLe enum)
    (hu0t : u0.totalPhotos = st0.total) (hu0s : u0.scannedPhotos = 0)
    (hu0m : u0.matchedPhotos = 0) (hu0u : u0.uploadedPhotos = 0)
    (hs0 : st0.scanned = 0) (hm0 : st0.matched = 0) (hup0 : st0.uploaded = 0)
    (hd : dSum dl bs' ≤ st0.total)
    (tail2 : List ProgressUpdate)
    (hch2 : List.Chain' cLe (cnt (runBatches m dl tB 1 st0 bs') :: tail2))
    (ht2 : ∀ u ∈ tail2, u.scannedPhotos ≤ u.totalPhotos) :
    List.Chain' cLe ((runBatches m dl tB 1 st0 bs').updates ++ tail2)
    ∧ (∀ u ∈ (runBatches m dl tB 1 st0 bs').updates ++ tail2,
        u.scannedPhotos ≤ u.totalPhotos) := by
  obtain ⟨tail, h1, h2, h3, h4⟩ := runBatches_updates m dl tB bs' 1 st0
  have hcle0 : cLe u0 (cnt st0) := by
    refine ⟨?_, ?_, ?_, ?_⟩ <;>
      simp [cnt, hu0t, hu0s, hu0m, hu0u, hs0, hm0, hup0]
  constructor
  · rw [h1, hupd, List.append_assoc, List.append_assoc]
    rw [List.chain'_append]
    refine ⟨henumch, ?_, ?_⟩
    · show List.Chain' cLe (u0 :: (tail ++ tail2))
      refine chain'_cons_of_le hcle0 ?_
      exact chain'_glue h2 hch2 (cnt_le_runBatches m dl tB bs' 1 st0) h3
    · intro x hx y hy
      have hxe : x ∈ enum := mem_of_mem_getLast? hx
      have hy0 : u0 = y := by simpa using hy
      subst hy0
      obtain ⟨e1, e2, e3, e4⟩ := henum x hxe
      exact ⟨by omega, by omega, by omega, by omega⟩
  · intro u hu
    rw [h1, hupd] at hu
    simp only [List.mem_append, List.mem_singleton] at hu
    rcases hu with ((hu | rfl) | hu) | hu
    · obtain ⟨e1, e2, e3, e4⟩ := henum u hu
      omega
    · omega
    · obtain ⟨b1, b2, b3⟩ := h4 u hu
      omega
    · exact ht2 u hu

/-! ## The master run lemma

All facts about one happy-path run used by the batching, monotonicity,
zero-item and round-trip claims, established once over the three branches
of `processScan`. -/

theorem processScan_master (cfg : Config) (env : Env) (id now : Nat)
    (db : ScanDB) (hbs : 0 < cfg.worker.batchSize) :
    List.Chain' cLe (processScan cfg env id now db).updates
    ∧ (∀ u ∈ (processScan cfg env id now db).updates,
        u.scannedPhotos ≤ u.totalPhotos)
    ∧ (processScan cfg env id now db).finalUploaded
        = (processScan cfg env id now db).rows.length
    ∧ (∀ r ∈ (processScan cfg env id now db).rows,
        ∃ u ∈ (processScan cfg env id now db).uploadResults,
          u.success = true ∧ r.googlePhotoId = u.originalId
          ∧ r.s3Url = u.url ∧ r.s3Key = u.key)
    ∧ (∀ s₀, lookupScan db id = some s₀ → s₀.uploadedPhotos = 0 →
        (lookupScan (processScan cfg env id now db).db id).map
            (·.uploadedPhotos)
          = some (processScan cfg env id now db).rows.length) := by
  have hT := chunks_flatten cfg.worker.batchSize hbs env.pages.flatten
  simp only [processScan]
  split
  · -- zero-photo short-circuit
    rename_i h0
    dsimp only
    refine ⟨pageUpdates_chain env.pages 0, ?_, rfl, by simp, ?_⟩
    · intro u hu
      obtain ⟨x1, _, _, _, _⟩ := pageUpdates_props env.pages 0 u hu
      omega
    · intro s₀ h hsu
      rw [uploaded_markScanCompleted, lookup_applyUpdates]
      obtain ⟨s₁, hs₁, hs₁u⟩ : ∃ s₁,
          lookupScan (markScanStarted db id now).1 id = some s₁
          ∧ s₁.uploadedPhotos = 0 := by
        have hpres := uploaded_markScanStarted db id now
        rw [h] at hpres
        simp only [Option.map_some'] at hpres
        rw [hsu] at hpres
        rcases hlk : lookupScan (markScanStarted db id now).1 id with _ | s₁
        · rw [hlk] at hpres
          simp at hpres
        · rw [hlk] at hpres
          exact ⟨s₁, rfl, by simpa using hpres⟩
      rw [hs₁]
      simp only [Option.map_some', Option.some.injEq, List.length_nil]
      exact foldl_overwrite_uploaded_zero _ s₁
        (fun u hu => (pageUpdates_props env.pages 0 u hu).2.2.1) hs₁u
  · rename_i h0
    split
    · -- matches found: originals are fetched, uploaded, and persisted
      rename_i hm
      dsimp only
      set T := env.pages.flatten.length with hTd
      set bsz := cfg.worker.batchSize with hbszd
      set totB := (T + bsz - 1) / bsz with htotBd
      set st0 : WorkerState :=
        { total := T, scanned := 0, matched := 0, uploaded := 0,
          matchedData := [],
          updates := pageUpdates env.pages 0 ++
            [{ totalPhotos := T, scannedPhotos := 0, matchedPhotos := 0,
               uploadedPhotos := 0, currentBatch := 0,
               totalBatches := totB }] } with hst0d
      set st1 := runBatches env.matchRes env.dlOk totB 1 st0
        (chunks bsz env.pages.flatten) with hst1d
      set matchedMeta := env.pages.flatten.filter
        (fun p => st1.matchedData.any (fun m => m.googlePhotoId = p.id))
        with hmmd
      set originals := matchedMeta.filter (fun p => env.origOk p.id)
        with horigd
      set results :=
        (runUploads env.upOk env.upUrl env.upKey st1 totB 0 originals).1
        with hresd
      set upUpds :=
        (runUploads env.upOk env.upUrl env.upKey st1 totB 0 originals).2
        with hupUd
      set recs := photoRecordsOf id st1.matchedData results with hrecsd
      set finalU : ProgressUpdate :=
        { totalPhotos := st1.total, scannedPhotos := st1.scanned,
          matchedPhotos := st1.matched, uploadedPhotos := recs.length,
          currentBatch := totB, totalBatches := totB } with hfinUd
      have hst0tot : st0.total = T := by rw [hst0d]
      have hst0sc : st0.scanned = 0 := by rw [hst0d]
      have hst0m : st0.matched = 0 := by rw [hst0d]
      have hst0up : st0.uploaded = 0 := by rw [hst0d]
      have hup1 : st1.uploaded = 0 := by
        rw [hst1d, runBatches_uploaded, hst0up]
      have htot1 : st1.total = T := by
        rw [hst1d, runBatches_total, hst0tot]
      have hsc1 : st1.scanned
          = dSum env.dlOk (chunks bsz env.pages.flatten) := by
        rw [hst1d, runBatches_scanned, hst0sc]
        omega
      have hd : dSum env.dlOk (chunks bsz env.pages.flatten) ≤ T := by
        have h1 := dSum_le_flatten env.dlOk (chunks bsz env.pages.flatten)
        rw [hT] at h1
        omega
      have hscle : st1.scanned ≤ st1.total := by
        rw [hsc1, htot1]
        exact hd
      have hupProps := runUploads_us_props env.upOk env.upUrl env.upKey
        st1 totB originals 0
      rw [← hupUd] at hupProps
      have hfind : ∀ r ∈ results.filter (·.success),
          (st1.matchedData.find?
            (fun m => m.googlePhotoId = r.originalId)).isSome := by
        intro r hr
        have hmemr : r ∈ results := List.mem_of_mem_filter hr
        have hid : r.originalId ∈ originals.map (·.id) := by
          rw [← runUploads_ids env.upOk env.upUrl env.upKey st1 totB
            originals 0, ← hresd]
          exact List.mem_map_of_mem _ hmemr
        obtain ⟨p, hp, hpid⟩ := List.mem_map.mp hid
        rw [horigd] at hp
        have hpM := List.mem_of_mem_filter hp
        rw [hmmd] at hpM
        have hany := List.of_mem_filter hpM
        obtain ⟨mm, hmm', hmp⟩ := List.any_eq_true.mp hany
        refine List.find?_isSome.mpr ⟨mm, hmm', ?_⟩
        have hmmid : mm.googlePhotoId = p.id := of_decide_eq_true hmp
        simp [hmmid, hpid]
      have hrecslen : recs.length
          = (originals.filter (fun p => env.upOk p.id)).length := by
        rw [hrecsd, photoRecordsOf_length id st1.matchedData results hfind,
          hresd]
        exact runUploads_success_count env.upOk env.upUrl env.upKey st1 totB
          originals 0
      have hupLe : ∀ u ∈ upUpds,
          u.totalPhotos = st1.total ∧ u.scannedPhotos = st1.scanned
          ∧ u.matchedPhotos = st1.matched
          ∧ u.uploadedPhotos ≤ recs.length := by
        intro u hu
        obtain ⟨x1, x2, x3, x4⟩ := hupProps u hu
        exact ⟨x1, x2, x3, by omega⟩
      have hupfin : ∀ u ∈ upUpds, cLe u finalU := by
        intro u hu
        obtain ⟨x1, x2, x3, x4⟩ := hupLe u hu
        rw [hfinUd]
        exact ⟨by dsimp only; omega, by dsimp only; omega,
          by dsimp only; omega, by dsimp only; omega⟩
      have hch2 : List.Chain' cLe (cnt st1 :: (upUpds ++ [finalU])) := by
        have hc := runUploads_chain env.upOk env.upUrl env.upKey st1 totB
          originals 0
        rw [← hupUd] at hc
        have step1 : List.Chain' cLe
            ({ totalPhotos := st1.total, scannedPhotos := st1.scanned,
               matchedPhotos := st1.matched, uploadedPhotos := 0,
               currentBatch := 0, totalBatches := 0 }
              :: (upUpds ++ [finalU])) := by
          refine chain'_glue hc
            (List.chain'_cons.mpr ⟨cLe_refl _, List.chain'_singleton _⟩)
            ?_ hupfin
          rw [hfinUd]
          exact ⟨le_refl _, le_refl _, le_refl _, by dsimp only; omega⟩
        refine chain'_cons_of_le ?_ step1
        exact ⟨le_refl _, le_refl _, le_refl _, by simp [cnt, hup1]⟩
      have ht2 : ∀ u ∈ (upUpds ++ [finalU]),
          u.scannedPhotos ≤ u.totalPhotos := by
        intro u hu
        rcases List.mem_append.mp hu with hu | hu
        · obtain ⟨x1, x2, _, _⟩ := hupLe u hu
          omega
        · have hueq : u = finalU := by simpa using hu
          rw [hueq, hfinUd]
          dsimp only
          exact hscle
      obtain ⟨hchain, hbounds⟩ := batch_stage_chain_bounds env.matchRes
        env.dlOk totB (chunks bsz env.pages.flatten) st0 _
        (pageUpdates env.pages 0) (by rw [hst0d])
        (fun u hu => by
          obtain ⟨x1, x2, x3, _, x5⟩ := pageUpdates_props env.pages 0 u hu
          exact ⟨x1, x2, x3, by omega⟩)
        (pageUpdates_chain env.pages 0)
        (by simp [hst0tot]) rfl rfl rfl hst0sc hst0m hst0up
        (by rw [hst0tot]; exact hd)
        (upUpds ++ [finalU]) hch2 ht2
      rw [← hst1d, ← List.append_assoc] at hchain hbounds
      refine ⟨hchain, hbounds, rfl, ?_, ?_⟩
      · intro r hr
        exact photoRecordsOf_mem id st1.matchedData results r
          (by rw [← hrecsd]; exact hr)
      · intro s₀ h hsu
        rw [uploaded_markScanCompleted, lookup_applyUpdates]
        have hs₁ : lookupScan (markScanStarted db id now).1 id
            = some { s₀ with
                     status := ScanStatus.processing,
                     startedAt := some now } := by
          unfold markScanStarted
          dsimp only
          rw [lookup_updateRow, h]
          rfl
        rw [hs₁]
        simp only [Option.map_some', Option.some.injEq]
        rw [foldl_overwrite_append_last, hfinUd]
    · -- no matches: the upload stage is skipped entirely
      rename_i hm
      dsimp only
      set T := env.pages.flatten.length with hTd
      set bsz := cfg.worker.batchSize with hbszd
      set totB := (T + bsz - 1) / bsz with htotBd
      set st0 : WorkerState :=
        { total := T, scanned := 0, matched := 0, uploaded := 0,
          matchedData := [],
          updates := pageUpdates env.pages 0 ++
            [{ totalPhotos := T, scannedPhotos := 0, matchedPhotos := 0,
               uploadedPhotos := 0, currentBatch := 0,
               totalBatches := totB }] } with hst0d
      set st1 := runBatches env.matchRes env.dlOk totB 1 st0
        (chunks bsz env.pages.flatten) with hst1d
      set finalU : ProgressUpdate :=
        { totalPhotos := st1.total, scannedPhotos := st1.scanned,
          matchedPhotos := st1.matched, uploadedPhotos := 0,
          currentBatch := totB, totalBatches := totB } with hfinUd
      have hst0tot : st0.total = T := by rw [hst0d]
      have hst0sc : st0.scanned = 0 := by rw [hst0d]
      have hst0m : st0.matched = 0 := by rw [hst0d]
      have hst0up : st0.uploaded = 0 := by rw [hst0d]
      have hup1 : st1.uploaded = 0 := by
        rw [hst1d, runBatches_uploaded, hst0up]
      have htot1 : st1.total = T := by
        rw [hst1d, runBatches_total, hst0tot]
      have hsc1 : st1.scanned
          = dSum env.dlOk (chunks bsz env.pages.flatten) := by
        rw [hst1d, runBatches_scanned, hst0sc]
        omega
      have hd : dSum env.dlOk (chunks bsz env.pages.flatten) ≤ T := by
        have h1 := dSum_le_flatten env.dlOk (chunks bsz env.pages.flatten)
        rw [hT] at h1
        omega
      have hscle : st1.scanned ≤ st1.total := by
        rw [hsc1, htot1]
        exact hd
      have hch2 : List.Chain' cLe (cnt st1 :: [finalU]) := by
        refine List.chain'_cons.mpr ⟨?_, List.chain'_singleton _⟩
        rw [hfinUd]
        refine ⟨le_refl _, le_refl _, le_refl _, ?_⟩
        show st1.uploaded ≤ _
        rw [hup1]
      have ht2 : ∀ u ∈ [finalU], u.scannedPhotos ≤ u.totalPhotos := by
        intro u hu
        have hueq : u = finalU := by simpa using hu
        rw [hueq, hfinUd]
        exact hscle
      obtain ⟨hchain, hbounds⟩ := batch_stage_chain_bounds env.matchRes
        env.dlOk totB (chunks bsz env.pages.flatten) st0 _
        (pageUpdates env.pages 0) (by rw [hst0d])
        (fun u hu => by
          obtain ⟨x1, x2, x3, _, x5⟩ := pageUpdates_props env.pages 0 u hu
          exact ⟨x1, x2, x3, by omega⟩)
        (pageUpdates_chain env.pages 0)
        (by simp [hst0tot]) rfl rfl rfl hst0sc hst0m hst0up
        (by rw [hst0tot]; exact hd)
        [finalU] hch2 ht2
      rw [← hst1d] at hchain hbounds
      refine ⟨hchain, hbounds, rfl, by simp, ?_⟩
      intro s₀ h hsu
      rw [uploaded_markScanCompleted, lookup_applyUpdates]
      have hs₁ : lookupScan (markScanStarted db id now).1 id
          = some { s₀ with
                   status := ScanStatus.processing,
                   startedAt := some now } := by
        unfold markScanStarted
        dsimp only
        rw [lookup_updateRow, h]
        rfl
      rw [hs₁]
      simp only [Option.map_some', Option.some.injEq, List.length_nil]
      rw [foldl_overwrite_append_last, hfinUd]

/-! ## C7 — counter monotonicity and `scanned ≤ total` -/

/-- C7: over any single run, every progress update satisfies
`scanned_items ≤ total_items`, and all four counters are non-decreasing
across successive progress updates (the updates in invocation order form a
chain under the pointwise counter order). -/
theorem counters_monotone (cfg : Config) (env : Env) (id now : Nat)
    (db : ScanDB) (hbs : 0 < cfg.worker.batchSize) :
    List.Chain' cLe (processScan cfg env id now db).updates
    ∧ ∀ u ∈ (processScan cfg env id now db).updates,
        u.scannedPhotos ≤ u.totalPhotos :=
  ⟨(processScan_master cfg env id now db hbs).1,
   (processScan_master cfg env id now db hbs).2.1⟩

/-- C7 witness: the theorem at a concrete run with matches and a failing
upload. -/
theorem counters_monotone_witness :
    List.Chain' cLe
      (processScan cfgBatch5 sampleEnvMatch 1 7 [(1, pendingScan)]).updates
    ∧ ∀ u ∈ (processScan cfgBatch5 sampleEnvMatch 1 7
        [(1, pendingScan)]).updates,
        u.scannedPhotos ≤ u.totalPhotos :=
  counters_monotone cfgBatch5 sampleEnvMatch 1 7 [(1, pendingScan)]
    (by decide)

/-! ## C6 — uploads, rows and the final uploaded counter -/

/-- C6: at scan completion every persisted row corresponds to a successful
upload result (same id, url and key), and the final `uploaded_items`
counter — both the worker's binding written by the final progress update
and the durable scans-row column — equals the number of rows created. -/
theorem uploaded_equals_matched_rows (cfg : Config) (env : Env)
    (id now : Nat) (db : ScanDB) (s₀ : Scan)
    (hbs : 0 < cfg.worker.batchSize)
    (h : lookupScan db id = some s₀) (h0 : s₀.uploadedPhotos = 0) :
    (processScan cfg env id now db).finalUploaded
      = (processScan cfg env id now db).rows.length
    ∧ (∀ r ∈ (processScan cfg env id now db).rows,
        ∃ u ∈ (processScan cfg env id now db).uploadResults,
          u.success = true ∧ r.googlePhotoId = u.originalId
          ∧ r.s3Url = u.url ∧ r.s3Key = u.key)
    ∧ (lookupScan (processScan cfg env id now db).db id).map
        (·.uploadedPhotos)
      = some (processScan cfg env id now db).rows.length := by
  have hma := processScan_master cfg env id now db hbs
  exact ⟨hma.2.2.1, hma.2.2.2.1, hma.2.2.2.2 s₀ h h0⟩

/-- C6 witness: a run where photos 2 and 6 match but photo 6's upload
fails, so exactly one row is persisted and the counter ends at 1. -/
theorem uploaded_equals_matched_rows_witness :
    ((processScan cfgBatch5 sampleEnvMatch 1 7
        [(1, pendingScan)]).finalUploaded
      = (processScan cfgBatch5 sampleEnvMatch 1 7
          [(1, pendingScan)]).rows.length)
    ∧ ((lookupScan (processScan cfgBatch5 sampleEnvMatch 1 7
          [(1, pendingScan)]).db 1).map (·.uploadedPhotos)
      = some (processScan cfgBatch5 sampleEnvMatch 1 7
          [(1, pendingScan)]).rows.length) :=
  ⟨(uploaded_equals_matched_rows cfgBatch5 sampleEnvMatch 1 7
      [(1, pendingScan)] pendingScan (by decide) rfl rfl).1,
   (uploaded_equals_matched_rows cfgBatch5 sampleEnvMatch 1 7
      [(1, pendingScan)] pendingScan (by decide) rfl rfl).2.2⟩

/-! ## C8 — zero discovered items -/

/-- C8: when enumeration discovers zero items the run short-circuits to
`completed` with zero totals — the batch/match stage and the
original-download/upload stage are never entered, no upload results or
rows exist, and the handler returns success with all counters 0. -/
theorem zero_items_short_circuit (cfg : Config) (env : Env) (id now : Nat)
    (db : ScanDB) (h0 : env.pages.flatten = []) :
    (processScan cfg env id now db).batchStageRan = false
    ∧ (processScan cfg env id now db).originalsStageRan = false
    ∧ (processScan cfg env id now db).uploadResults = []
    ∧ (processScan cfg env id now db).rows = []
    ∧ (processScan cfg env id now db).ret
        = { success := true, totalPhotos := 0, scannedPhotos := 0,
            matchedPhotos := 0, uploadedPhotos := 0 }
    ∧ (lookupScan (processScan cfg env id now db).db id).map (·.status)
        = (lookupScan db id).map (fun _ => ScanStatus.completed) := by
  have hlen : env.pages.flatten.length = 0 := by rw [h0]; rfl
  simp only [processScan]
  rw [if_pos hlen]
  refine ⟨rfl, rfl, rfl, rfl, rfl, ?_⟩
  dsimp only
  rw [status_markScanCompleted, lookup_applyUpdates]
  unfold markScanStarted
  dsimp only
  rw [lookup_updateRow]
  cases lookupScan db id <;> rfl

/-- C8 witness: a single empty enumeration page against an existing
pending scan. -/
theorem zero_items_short_circuit_witness :
    (processScan config sampleEnvEmpty 1 7 [(1, pendingScan)]).batchStageRan
        = false
    ∧ (processScan config sampleEnvEmpty 1 7
        [(1, pendingScan)]).originalsStageRan = false
    ∧ (processScan config sampleEnvEmpty 1 7
        [(1, pendingScan)]).uploadResults = []
    ∧ (processScan config sampleEnvEmpty 1 7 [(1, pendingScan)]).rows = []
    ∧ (processScan config sampleEnvEmpty 1 7 [(1, pendingScan)]).ret
        = { success := true, totalPhotos := 0, scannedPhotos := 0,
            matchedPhotos := 0, uploadedPhotos := 0 }
    ∧ (lookupScan (processScan config sampleEnvEmpty 1 7
          [(1, pendingScan)]).db 1).map (·.status)
        = (lookupScan [(1, pendingScan)] 1).map
            (fun _ => ScanStatus.completed) :=
  zero_items_short_circuit config sampleEnvEmpty 1 7 [(1, pendingScan)] rfl

/-! ## C4 — when incremental progress updates fire -/

/-- C4 counterexample.  The claim states an update is pushed after every
10 evaluated items *and also at the end of each batch*.  A run of 7 photos
with batch size 5 yields two batches (5 and 2 photos); the first batch
ends with a cumulative scanned count of 5, yet the complete update list of
the run contains no update for it: no update carries `currentBatch = 1`
and none carries `scannedPhotos = 5` — only the two enumeration-stage
updates and the final one exist. -/
theorem no_end_of_batch_update_cex :
    (processScan cfgBatch5 sampleEnv7 1 7 [(1, pendingScan)]).updates
      = [{ totalPhotos := 7, scannedPhotos := 0, matchedPhotos := 0,
           uploadedPhotos := 0, currentBatch := 0, totalBatches := 0 },
         { totalPhotos := 7, scannedPhotos := 0, matchedPhotos := 0,
           uploadedPhotos := 0, currentBatch := 0, totalBatches := 2 },
         { totalPhotos := 7, scannedPhotos := 7, matchedPhotos := 0,
           uploadedPhotos := 0, currentBatch := 2, totalBatches := 2 }]
    ∧ ((processScan cfgBatch5 sampleEnv7 1 7
        [(1, pendingScan)]).updates.filter
          (fun u => u.currentBatch = 1)) = []
    ∧ ((processScan cfgBatch5 sampleEnv7 1 7
        [(1, pendingScan)]).updates.filter
          (fun u => u.scannedPhotos = 5)) = [] := by
  decide

/-- C4 (amended): during the batch/match stage an incremental progress
update is pushed exactly after those evaluated items whose cumulative
scanned count is a multiple of 10 — the scanned counts of the stage's
updates are precisely the multiples of 10 up to the number of evaluated
items; there is no additional end-of-batch update. -/
theorem progress_updates_every_ten_amended (m : Nat → MatchResult)
    (dl : Nat → Bool) (tB bs : Nat) (photos : List Photo)
    (st : WorkerState) (hupd : st.updates = []) (hsc : st.scanned = 0) :
    ((runBatches m dl tB 1 st (chunks bs photos)).updates).map
        (·.scannedPhotos)
      = pushPoints 0 (runBatches m dl tB 1 st (chunks bs photos)).scanned
    ∧ (∀ k : Nat,
        k ∈ pushPoints 0 (runBatches m dl tB 1 st (chunks bs photos)).scanned
        ↔ 0 < k
          ∧ k ≤ (runBatches m dl tB 1 st (chunks bs photos)).scanned
          ∧ k % 10 = 0) := by
  have hs := runBatches_scanned m dl tB (chunks bs photos) 1 st
  constructor
  · rw [runBatches_pushes, hupd, hsc, hs, hsc]
    simp
  · intro k
    rw [mem_pushPoints]
    omega

/-- C4 witness: 12 photos, batch size 5 — the stage pushes exactly one
update, at the 10th evaluated item. -/
theorem progress_updates_every_ten_amended_witness :
    ((runBatches (fun _ => sampleNoMatch) (fun _ => true) 3 1
        { total := 12, scanned := 0, matched := 0, uploaded := 0,
          matchedData := [], updates := [] }
        (chunks 5 ((List.range 12).map
          (fun n => ⟨n, "base", "img"⟩)))).updates).map (·.scannedPhotos)
      = pushPoints 0 (runBatches (fun _ => sampleNoMatch) (fun _ => true) 3 1
          { total := 12, scanned := 0, matched := 0, uploaded := 0,
            matchedData := [], updates := [] }
          (chunks 5 ((List.range 12).map
            (fun n => ⟨n, "base", "img"⟩)))).scanned :=
  (progress_updates_every_ten_amended (fun _ => sampleNoMatch)
    (fun _ => true) 3 5 ((List.range 12).map (fun n => ⟨n, "base", "img"⟩))
    { total := 12, scanned := 0, matched := 0, uploaded := 0,
      matchedData := [], updates := [] } rfl rfl).1

end PhotoFaceFinder
